import Mathlib

/-!
Shallow embedding of the Mochimo OpenCL mining worker:
the Peach per-device driver (`src/peach_opencl.c`) and the Stratum
pool client (`src/stratum.c`).

Bytes are modelled as `List Nat` (each entry a machine byte, value < 256
at every producer).  Structures missing from the provided sources
(`types.h`: the `BTRAILER` layout, device status and return codes, and
the constants `PEACHCACHELEN` / `BRIDGEv3`) are modelled from the spec,
as marked on each definition.  OpenCL driver calls are assumed to
succeed: error paths that only set `DEV_FAIL` on a failing API call are
not reachable in the model.  Device kernel effects and queue readiness
are supplied by a per-tick environment (an oracle), since they are
performed by the opaque compute device.
-/

namespace Mochimo

/-- Byte strings: lists of machine bytes. -/
abbrev Bytes := List Nat

/-- All-zero byte string of length `n` (models `memset(_, 0, n)` / `calloc`). -/
def zeros (n : Nat) : Bytes := List.replicate n 0

/-- Little-endian value of a byte string (first byte least significant). -/
def leVal : Bytes → Nat
  | [] => 0
  | b :: r => b + 256 * leVal r

/-- `get32`: read a 32-bit little-endian word from the first 4 bytes. -/
def get32 (bs : Bytes) : Nat := leVal (bs.take 4)

/-- 64-bit little-endian word of the first 8 bytes (used for `cmp64` and
the `word64` solve check). -/
def le64 (bs : Bytes) : Nat := leVal (bs.take 8)

/-- Update one slot of a two-slot (double-buffer) family. -/
def upd2 {α : Type} (f : Bool → α) (i : Bool) (v : α) : Bool → α :=
  fun j => if j = i then v else f j

/-- Overwrite `v` into `l` starting at byte offset `off` (models `memcpy`
into the middle of a fixed-size record). -/
def overwrite (l : Bytes) (off : Nat) (v : Bytes) : Bytes :=
  l.take off ++ v ++ l.drop (off + v.length)

/-! ### Block trailer layout

Modelled from the spec: `types.h` is not among the provided sources; the
spec fixes the 160-byte `BTRAILER` wire layout as offset 0: previous
hash (32); 32: merkle root (32); 64: block number (8); 72: difficulty
(8, only byte 0 used); 80: time0 (4); 84: transaction count (4);
88..91: reserved; 92..123: nonce (32); 124..159: other fields. -/

/-- `HASHLEN` (32). -/
def HASHLEN : Nat := 32

/-- Previous-hash field of a trailer. -/
def btPhash (t : Bytes) : Bytes := t.take 32

/-- Merkle-root field of a trailer. -/
def btMroot (t : Bytes) : Bytes := (t.drop 32).take 32

/-- Block-number field of a trailer. -/
def btBnum (t : Bytes) : Bytes := (t.drop 64).take 8

/-- First (effective) difficulty byte of a trailer. -/
def btDiff0 (t : Bytes) : Nat := t.getD 72 0

/-- `time0` field of a trailer. -/
def btTime0 (t : Bytes) : Bytes := (t.drop 80).take 4

/-- Transaction-count field of a trailer. -/
def btTcount (t : Bytes) : Bytes := (t.drop 84).take 4

/-- Nonce field of a trailer. -/
def btNonce (t : Bytes) : Bytes := (t.drop 92).take 32

/-- Overwrite the 32-byte nonce field of a trailer
(`memcpy(bt->nonce, src, 32)`). -/
def setNonce (t : Bytes) (v : Bytes) : Bytes :=
  t.take 92 ++ v.take 32 ++ t.drop 124

/-- Overwrite the 16-byte seed half of the nonce with a fresh
pseudo-random value (models `trigg_generate(bt->nonce)`; `trigg.h` is
external, the spec describes it as filling the 16-byte seed half). -/
def setSeed (t : Bytes) (v : Bytes) : Bytes :=
  t.take 92 ++ v.take 16 ++ t.drop 108

/-- Copy the first 92 header bytes of `src` over `dst`
(`memcpy(dst, src, 92)`). -/
def copy92 (dst src : Bytes) : Bytes := src.take 92 ++ dst.drop 92

/-! ### Peach driver constants and state -/

/-- Modelled from the spec: `PEACHCACHELEN`, the number of entries of the
1 GiB Peach map, a compile-time constant external to the provided
sources (the Mochimo value, 1048576 map tiles). -/
def PEACHCACHELEN : Nat := 1048576

/-- Modelled from the spec: `BRIDGEv3`, the soft time horizon (seconds)
after which a block's `time0` is considered stale. -/
def BRIDGEv3 : Nat := 949

/-- Modelled from the spec: device status values of `DEVICE_CTX.status`
(`types.h` is external).  `DEV_FAIL` is the only status below `DEV_NULL`. -/
inductive DevStatus : Type where
  | DEV_FAIL : DevStatus
  | DEV_NULL : DevStatus
  | DEV_INIT : DevStatus
  | DEV_IDLE : DevStatus
  | DEV_WORK : DevStatus
deriving DecidableEq, Repr

/-- `ctx->status < DEV_NULL` (the unusable-GPU test). -/
def DevStatus.unusable : DevStatus → Bool
  | .DEV_FAIL => true
  | _ => false

/-- Modelled from the spec: mining-level return codes (`VEOK` = solve,
`VERROR` = no solve, `VETIMEOUT` = stopped/unrecoverable GPU). -/
inductive Verr : Type where
  | VEOK : Verr
  | VERROR : Verr
  | VETIMEOUT : Verr
deriving DecidableEq, Repr

/-- Fixed per-device work dimensions (`ctx->threads`,
`ocl->global_work_size`, `ocl->local_work_size`). -/
structure PeachCfg : Type where
  threads : Nat
  globalWS : Nat
  localWS : Nat

/-- The mutable device-driver state touched by `peach_solve_opencl`:
the `DEVICE_CTX` counters plus the `OPENCL_CTX` buffer contents.
`h_*` are host buffers, `d_*` the device-side buffer contents. -/
structure PeachState : Type where
  status : DevStatus
  work : Nat
  last : Nat
  hps : Nat
  h_bt : Bool → Bytes
  h_solve : Bool → Bytes
  d_solve : Bool → Bytes
  d_bt : Bool → Bytes
  d_phash : Bytes

/-- Per-tick environment: queue readiness as observed at the start of the
tick, the wall clock, the 16-byte seed `trigg_generate` would produce for
each queue, and the solve-kernel outcome for a launch on each queue
(`some v`: the kernel wrote the 32-byte solution `v` into `d_solve`;
`none`: no nonce met the difficulty, `d_solve` is left unchanged). -/
structure PeachEnv : Type where
  ready : Bool → Bool
  now : Nat
  seed : Bool → Bytes
  solveOut : Bool → Option Bytes

/-- `opencl_queue_ready`: a queue polls ready when it was ready at the
start of the tick and this tick has not enqueued new work on it
(`busy` tracks intra-tick enqueues; `clFinish` resets it). -/
def qready (env : PeachEnv) (busy : Bool → Bool) (i : Bool) : Bool :=
  env.ready i && !(busy i)

/-- `build_global`: launch size `min(PEACHCACHELEN - work, global)`
rounded up to a multiple of `local`. -/
def roundupTo (x l : Nat) : Nat := (x + l - 1) / l * l

/-- One tick's outcome: the return code, the new driver state, the new
contents of `btout`, and the kernel launches enqueued this tick
(build launches as `(queue, size)`, solve launches as
`(queue, difficulty argument)`). -/
structure TickOut : Type where
  res : Verr
  st : PeachState
  btout : Bytes
  buildLog : List (Bool × Nat)
  solveLog : List (Bool × Nat)

/-- Accumulator of the `DEV_INIT` build loop (`for (build = id = 0; ...)`). -/
structure InitAcc : Type where
  st : PeachState
  busy : Bool → Bool
  build : Bool
  brk : Bool
  buildLog : List (Bool × Nat)

/-- One iteration (queue `id`) of the `DEV_INIT` build loop of
`peach_solve_opencl`.  `brk` models `break`: once set, later iterations
do nothing. -/
def initIter (cfg : PeachCfg) (env : PeachEnv) (bt : Bytes) (a : InitAcc)
    (id : Bool) : InitAcc :=
  if a.brk then a
  else if !(qready env a.busy id) then a
  else
    -- pre-build state: clear late solves, copy trailer, write phash, sync
    let a1 :=
      if a.st.work = 0 ∧ a.build = false then
        if !(qready env a.busy (!id)) then { a with brk := true }
        else
          { a with
            st := { a.st with
              d_solve := fun _ => zeros 32
              h_solve := fun _ => zeros 32
              h_bt := fun _ => bt
              d_phash := btPhash bt }
            busy := fun _ => false  -- clFinish on both queues
            build := true }
      else a
    if a1.brk then a1
    else if a1.st.work > 0 ∨ a1.build then
      if a1.st.work < PEACHCACHELEN then
        let g := roundupTo (min (PEACHCACHELEN - a1.st.work) cfg.globalWS)
                   cfg.localWS
        { a1 with
          st := { a1.st with work := a1.st.work + g }
          busy := upd2 a1.busy id true
          buildLog := a1.buildLog ++ [(id, g)] }
      else
        if !(qready env a1.busy (!id)) then { a1 with brk := true }
        else
          { a1 with
            st := { a1.st with last := env.now, status := .DEV_IDLE, work := 0 }
            brk := true }
    else a1

/-- The `while (ctx->status == DEV_IDLE)` gate: switch to `DEV_WORK`
when the trailer has transactions, a fresh block number, and time0 not
yet past the `BRIDGEv3` horizon. -/
def idleGate (st : PeachState) (env : PeachEnv) (bt btout : Bytes) : PeachState :=
  if st.status = .DEV_IDLE then
    if get32 (btTcount bt) = 0 then st
    else if le64 (btBnum bt) = le64 (btBnum btout) then st
    else if (BRIDGEv3 : Int) ≤ (env.now : Int) - (get32 (btTime0 bt) : Int) then st
    else { st with last := env.now, status := .DEV_WORK, work := 0 }
  else st

/-- The "work-available" predicate of the spec: non-zero transaction
count, a block number different from the one last written to `btout`,
and wall time since `time0` below the `BRIDGEv3` horizon.  It is the
exact negation of the driver's switch-to-IDLE condition. -/
def workAvail (env : PeachEnv) (bt btout : Bytes) : Prop :=
  get32 (btTcount bt) ≠ 0 ∧ le64 (btBnum bt) ≠ le64 (btBnum btout) ∧
  (env.now : Int) - (get32 (btTime0 bt) : Int) < (BRIDGEv3 : Int)

instance workAvail.dec (env : PeachEnv) (bt btout : Bytes) :
    Decidable (workAvail env bt btout) := by
  unfold workAvail
  infer_instance

/-- The switch-to-IDLE condition checked per queue in `DEV_WORK`. -/
def idleCond (env : PeachEnv) (bt btoutA : Bytes) : Prop :=
  get32 (btTcount bt) = 0 ∨ le64 (btBnum bt) = le64 (btBnum btoutA) ∨
  (BRIDGEv3 : Int) ≤ (env.now : Int) - (get32 (btTime0 bt) : Int)

instance idleCond.dec (env : PeachEnv) (bt btoutA : Bytes) :
    Decidable (idleCond env bt btoutA) := by
  unfold idleCond
  infer_instance

/-- Queue `id` is the first queue the `DEV_WORK` loop processes this
tick (every earlier queue polls unready). -/
def firstReady (env : PeachEnv) (id : Bool) : Prop :=
  match id with
  | false => env.ready false = true
  | true => env.ready false = false ∧ env.ready true = true

/-- Accumulator of the `DEV_WORK` solve loop.  `done` records an early
`return VEOK`. -/
structure WorkAcc : Type where
  st : PeachState
  btout : Bytes
  busy : Bool → Bool
  done : Option Verr
  brk : Bool
  solveLog : List (Bool × Nat)

/-- One iteration (queue `id`) of the `DEV_WORK` solve loop of
`peach_solve_opencl`. -/
def workIter (cfg : PeachCfg) (env : PeachEnv) (bt : Bytes) (diff : Nat)
    (a : WorkAcc) (id : Bool) : WorkAcc :=
  if a.brk ∨ a.done.isSome then a
  else if !(qready env a.busy id) then a
  else if btPhash (a.st.h_bt id) ≠ btPhash bt then
    -- trailer phash changed: restart the map build
    { a with st := { a.st with status := .DEV_INIT, work := 0 }, brk := true }
  else if idleCond env bt a.btout then
    -- switch to IDLE mode when reasonable
    { a with st := { a.st with status := .DEV_IDLE, work := 0 }, brk := true }
  else if le64 (a.st.h_solve id) ≠ 0 then
    -- previous launch solved: combine with nonce, report, clear
    let nbt := setNonce (a.st.h_bt id) (a.st.h_solve id)
    { a with
      st := { a.st with
        h_bt := upd2 a.st.h_bt id nbt
        h_solve := upd2 a.st.h_solve id (zeros 32)
        d_solve := upd2 a.st.d_solve id (zeros 32) }
      btout := nbt
      done := some .VEOK }
  else
    -- new attempt: refresh trailer + seed nonce, launch solve, read back
    let nbt := setSeed (copy92 (a.st.h_bt id) bt) (env.seed id)
    let ndbt := nbt.take 108 ++ (a.st.d_bt id).drop 108
    let sdiff := if diff ≠ 0 ∧ diff < btDiff0 bt then diff else btDiff0 bt
    let nd := match env.solveOut id with
              | none => a.st.d_solve id
              | some v => v
    let w := a.st.work + cfg.threads
    let delta := (env.now : Int) - (a.st.last : Int)
    { a with
      st := { a.st with
        h_bt := upd2 a.st.h_bt id nbt
        d_bt := upd2 a.st.d_bt id ndbt
        d_solve := upd2 a.st.d_solve id nd
        h_solve := upd2 a.st.h_solve id nd
        work := w
        hps := w / (if delta = 0 then 1 else delta).toNat }
      busy := upd2 a.busy id true
      solveLog := a.solveLog ++ [(id, sdiff)] }

/-- `peach_solve_opencl`: one non-blocking tick of the per-device state
machine, translated from `src/peach_opencl.c` (OpenCL API calls assumed
successful). -/
def peachTick (cfg : PeachCfg) (st : PeachState) (env : PeachEnv)
    (bt btout : Bytes) (diff : Nat) : TickOut :=
  if st.status.unusable then ⟨.VETIMEOUT, st, btout, [], []⟩
  else
    let busy0 : Bool → Bool := fun i => !(env.ready i)
    let ia :=
      if st.status = .DEV_INIT then
        initIter cfg env bt (initIter cfg env bt ⟨st, busy0, false, false, []⟩ false) true
      else ⟨st, busy0, false, false, []⟩
    let st1 := idleGate ia.st env bt btout
    if st1.status = .DEV_WORK then
      let w := workIter cfg env bt diff
                 (workIter cfg env bt diff ⟨st1, btout, ia.busy, none, false, []⟩ false) true
      ⟨w.done.getD .VERROR, w.st, w.btout, ia.buildLog, w.solveLog⟩
    else ⟨.VERROR, st1, btout, ia.buildLog, []⟩

/-- Iterate `peachTick` with a fixed environment, keeping only the state
(the caller's `bt`/`btout` unchanged between ticks). -/
def runTicks (cfg : PeachCfg) (env : PeachEnv) (bt btout : Bytes)
    (diff : Nat) (st : PeachState) : Nat → PeachState
  | 0 => st
  | k + 1 => (peachTick cfg (runTicks cfg env bt btout diff st k) env bt btout diff).st

/-- The all-ready environment: both queues poll ready at the start of
every tick (no launch of a previous tick is still in flight). -/
def envAll (now : Nat) : PeachEnv :=
  { ready := fun _ => true, now := now
    seed := fun _ => zeros 16, solveOut := fun _ => none }

/-! ### Stratum client (`src/stratum.c`)

C strings are modelled as `List Char` (NUL-terminated buffers: the
list is the content up to the terminator). -/

/-- `isspace` of the C locale. -/
def isSpaceC (c : Char) : Bool :=
  c = ' ' ∨ c = '\t' ∨ c = '\n' ∨ c = '\x0b' ∨ c = '\x0c' ∨ c = '\r'

/-- Hexadecimal digit test. -/
def isHexDig (c : Char) : Bool :=
  c.isDigit ∨ ('a' ≤ c ∧ c ≤ 'f') ∨ ('A' ≤ c ∧ c ≤ 'F')

/-- Value of a hexadecimal digit. -/
def hexVal (c : Char) : Nat :=
  if c.isDigit then c.toNat - 48
  else if 'a' ≤ c ∧ c ≤ 'f' then c.toNat - 87
  else if 'A' ≤ c ∧ c ≤ 'F' then c.toNat - 55
  else 0

/-- Skip C whitespace. -/
def skipWsC : List Char → List Char
  | [] => []
  | c :: r => if isSpaceC c then skipWsC r else c :: r

/-- `sscanf(s, "%2x", &byte)`: skip whitespace (not counted against the
field width), then match at most two characters of an optionally signed
hexadecimal integer.  With a leading `+` or `-` the sign consumes one of
the two width characters, so exactly one digit can follow; a `-` value
wraps as the `unsigned int` negation (mod `2^32`).  The scan fails
(conversion count 0) when no hexadecimal digit is found after the
optional whitespace and optional sign.  (A `0` consumed before an `x`
yields the value 0 just as the C library does, so the `0x` form needs no
separate case at width 2.) -/
def scan2x (s : List Char) : Option Nat :=
  match skipWsC s with
  | [] => none
  | c0 :: rest =>
    if c0 = '+' ∨ c0 = '-' then
      match rest with
      | c1 :: _ =>
        if isHexDig c1 then
          some (if c0 = '-' then (2 ^ 32 - hexVal c1) % 2 ^ 32 else hexVal c1)
        else none
      | [] => none
    else if isHexDig c0 then
      match rest with
      | c1 :: _ => if isHexDig c1 then some (hexVal c0 * 16 + hexVal c1)
                   else some (hexVal c0)
      | [] => some (hexVal c0)
    else none

/-- The loop of `hex_to_bytes`: decode `k` byte pairs of `hex` starting
at pair index `pos`, overwriting `out` in place; each stored byte is the
scanned `unsigned int` cast to `word8` (`% 256`); returns the buffer and
whether every pair scanned (bytes before a failing pair stay written). -/
def hexLoop (hex : List Char) (out : Bytes) (pos : Nat) : Nat → Bytes × Bool
  | 0 => (out, true)
  | k + 1 =>
    match scan2x (hex.drop (2 * pos)) with
    | none => (out, false)
    | some b => hexLoop hex (out.set pos (b % 256)) (pos + 1) k

/-- `hex_to_bytes`: convert a hex string into at most `outlen` bytes of
`out`; the result code is `some (len / 2)` on success and `none` (C:
`-1`) when some `%2x` scan fails. -/
def hex_to_bytes (hex : List Char) (out : Bytes) (outlen : Nat) :
    Bytes × Option Nat :=
  match hexLoop hex out 0 (min hex.length (outlen * 2) / 2) with
  | (o, true) => (o, some (min hex.length (outlen * 2) / 2))
  | (o, false) => (o, none)

/-- Lower-case hexadecimal digit characters (`%x` output alphabet). -/
def hexChar (n : Nat) : Char :=
  match n % 16 with
  | 0 => '0' | 1 => '1' | 2 => '2' | 3 => '3'
  | 4 => '4' | 5 => '5' | 6 => '6' | 7 => '7'
  | 8 => '8' | 9 => '9' | 10 => 'a' | 11 => 'b'
  | 12 => 'c' | 13 => 'd' | 14 => 'e' | _ => 'f'

/-- `sprintf("%02x", b)` for one machine byte. -/
def byteHex (b : Nat) : List Char := [hexChar (b % 256 / 16), hexChar (b % 16)]

/-- `bytes_to_hex`: lower-case hex string of a byte buffer. -/
def bytes_to_hex (bs : Bytes) : List Char := bs.flatMap byteHex

/-- `strchr(s, c)`: the suffix of `s` starting at the first occurrence
of `c`, if any. -/
def strchr (s : List Char) (c : Char) : Option (List Char) :=
  match s with
  | [] => none
  | a :: r => if a = c then some (a :: r) else strchr r c

/-- `strstr(hay, needle)`: the suffix of `hay` starting at the first
occurrence of `needle`, if any. -/
def strstrL (hay needle : List Char) : Option (List Char) :=
  if needle.isPrefixOf hay then some hay
  else match hay with
       | [] => none
       | _ :: r => strstrL r needle

/-- Skip plain spaces (the `while (*p == ' ')` loops). -/
def skipSp : List Char → List Char
  | [] => []
  | c :: r => if c = ' ' then skipSp r else c :: r

/-- Copy-loop body: up to `cap` characters until a closing quote. -/
def takeCapQ : List Char → Nat → List Char
  | _, 0 => []
  | [], _ => []
  | c :: r, n + 1 => if c = '"' then [] else c :: takeCapQ r n

/-- Copy-loop body: up to `cap` characters until `,` or `]`. -/
def takeCapU : List Char → Nat → List Char
  | _, 0 => []
  | [], _ => []
  | c :: r, n + 1 => if c = ',' ∨ c = ']' then [] else c :: takeCapU r n

/-- Quoted field scan: if the cursor is at `"`, copy up to `cap`
characters until the closing quote (consumed when present); otherwise
the field stays empty and the cursor does not move. -/
def scanQ (cap : Nat) (p : List Char) : List Char × List Char :=
  match p with
  | '"' :: rest =>
    let fld := takeCapQ rest cap
    let r1 := rest.drop fld.length
    (fld, match r1 with
          | '"' :: r2 => r2
          | r2 => r2)
  | _ => ([], p)

/-- Quoted-or-unquoted field scan (difficulty and time0 fields). -/
def scanQU (cap : Nat) (p : List Char) : List Char × List Char :=
  match p with
  | '"' :: _ => scanQ cap p
  | _ =>
    let fld := takeCapU p cap
    (fld, p.drop fld.length)

/-- Merkle-root scan: quoted copy without consuming the closing quote. -/
def scanM (cap : Nat) (p : List Char) : List Char :=
  match p with
  | '"' :: rest => takeCapQ rest cap
  | _ => []

/-- The six raw text fields scanned out of a `mining.notify` params
array by `stratum_parse_job`. -/
structure JobFields : Type where
  jid : List Char
  ph : List Char
  bn : List Char
  df : List Char
  t0 : List Char
  mr : List Char
deriving DecidableEq, Repr

/-- `p = strchr(p, ','); if (!p) return -1; p++; while (*p == ' ') p++;` -/
def nextField (p : List Char) : Option (List Char) :=
  match strchr p ',' with
  | none => none
  | some q => some (skipSp (q.drop 1))

/-- The scanning phase of `stratum_parse_job`: walk the params array and
extract the six text fields; every early `return -1` happens here,
before any store into the pending job. -/
def parseFields (params : List Char) : Option JobFields :=
  match strchr params '[' with
  | none => none
  | some q =>
    let p := q.drop 1
    let (jid, p) := scanQ 63 p
    match nextField p with
    | none => none
    | some p =>
      let (ph, p) := scanQ 127 p
      match nextField p with
      | none => none
      | some p =>
        let (bn, p) := scanQ 31 p
        match nextField p with
        | none => none
        | some p =>
          let (df, p) := scanQU 15 p
          match nextField p with
          | none => none
          | some p =>
            let (t0, p) := scanQU 15 p
            match nextField p with
            | none => none
            | some p => some ⟨jid, ph, bn, df, t0, scanM 127 p⟩

/-- Leading decimal digits (accumulator form, as `atoi`/`strtoul`). -/
def decNat : List Char → Nat → Nat
  | [], a => a
  | c :: r, a => if c.isDigit then decNat r (a * 10 + (c.toNat - 48)) else a

/-- Leading hexadecimal digits (as `strtol(_, _, 16)` after `0x`). -/
def hexNat : List Char → Nat → Nat
  | [], a => a
  | c :: r, a => if isHexDig c then hexNat r (a * 16 + hexVal c) else a

/-- `atoi` / `strtoul(s, NULL, 10)`: optional whitespace and sign, then
decimal digits (overflow of the C `long` range is not modelled; the
fields involved are at most 15 characters). -/
def atoiM (s : List Char) : Int :=
  match skipWsC s with
  | '-' :: r => -(decNat r 0 : Int)
  | '+' :: r => (decNat r 0 : Int)
  | r => (decNat r 0 : Int)

/-- `strtol(s, NULL, 16)` (applied after stripping a literal `0x`):
optional whitespace and sign, optional second `0x`, then hex digits. -/
def strtolHexM (s : List Char) : Int :=
  let body : List Char → Int := fun r =>
    match r with
    | '0' :: 'x' :: r2 => (hexNat r2 0 : Int)
    | '0' :: 'X' :: r2 => (hexNat r2 0 : Int)
    | _ => (hexNat r 0 : Int)
  match skipWsC s with
  | '-' :: r => -(body r)
  | '+' :: r => body r
  | r => body r

/-- `(word8)` cast of a C integer value. -/
def word8of (z : Int) : Nat := (z % 256).toNat

/-- `(uint32_t)` cast of a C integer value. -/
def word32of (z : Int) : Nat := (z % 4294967296).toNat

/-- The four little-endian bytes of a 32-bit value. -/
def le4 (n : Nat) : Bytes :=
  [n % 256, n / 256 % 256, n / 65536 % 256, n / 16777216 % 256]

/-- `s` starts with the two characters `a b` (`strncmp(s, "ab", 2) == 0`). -/
def starts2 (s : List Char) (a b : Char) : Bool :=
  match s with
  | c0 :: c1 :: _ => c0 = a ∧ c1 = b
  | _ => false

/-- One Stratum job slot (`STRATUM_JOB`; the unused 4-byte difficulty
tail and `maddr` are never read or written by the provided sources and
are omitted; `job_seq` is a `uint64_t` counter incremented once per
message, whose wrap-around at `2^64` is unreachable and not modelled). -/
structure StratumJob : Type where
  job_id : List Char
  phash : Bytes
  bnum : Bytes
  difficulty0 : Nat
  time0 : Bytes
  mroot : Bytes
  valid : Nat
  job_seq : Nat
deriving DecidableEq, Repr

/-- The store phase of `stratum_parse_job`: decode the scanned fields
into the pending job (hex decode failures are ignored and leave a
partially overwritten buffer, exactly as the C code ignores the
`hex_to_bytes` return value). -/
def storeJob (job : StratumJob) (f : JobFields) : StratumJob :=
  { job with
    job_id := f.jid
    phash := (hex_to_bytes f.ph job.phash 32).1
    bnum := (hex_to_bytes f.bn job.bnum 8).1
    difficulty0 :=
      word8of (if starts2 f.df '0' 'x' then strtolHexM (f.df.drop 2)
               else atoiM f.df)
    time0 :=
      le4 (word32of (if starts2 f.t0 '0' 'x' then strtolHexM (f.t0.drop 2)
                     else atoiM f.t0))
    mroot := (hex_to_bytes f.mr job.mroot 32).1
    valid := 1
    job_seq := job.job_seq + 1 }

/-- `stratum_parse_job`: scan the params text, then store the pending
job; `none` is the C `-1` (the pending job is untouched in that case). -/
def stratum_parse_job (job : StratumJob) (params : List Char) :
    Option StratumJob :=
  (parseFields params).map (storeJob job)

/-! Stratum connection states. -/

/-- `STRATUM_DISCONNECTED`. -/
def STRATUM_DISCONNECTED : Nat := 0
/-- `STRATUM_CONNECTING`. -/
def STRATUM_CONNECTING : Nat := 1
/-- `STRATUM_SUBSCRIBING`. -/
def STRATUM_SUBSCRIBING : Nat := 2
/-- `STRATUM_AUTHORIZING`. -/
def STRATUM_AUTHORIZING : Nat := 3
/-- `STRATUM_CONNECTED`. -/
def STRATUM_CONNECTED : Nat := 4

/-- Stratum context (`STRATUM_CTX`), socket and receive buffer aside
(network transport is external). -/
structure StratumCtx : Type where
  sd : Int
  state : Nat
  wallet : List Char
  worker : List Char
  msg_id : Nat
  current : StratumJob
  pending : StratumJob
  accepted : Nat
  rejected : Nat
  difficulty : Int
deriving DecidableEq, Repr

/-- Skip spaces and tabs (the value-position skip of the JSON getters). -/
def skipSpTab : List Char → List Char
  | [] => []
  | c :: r => if c = ' ' ∨ c = '\t' then skipSpTab r else c :: r

/-- `json_get_string(json, key, out, outlen)`: locate `"key"`, the colon
after it, skip spaces and tabs, and require a quoted value (truncated to
`outlen - 1` characters). -/
def json_get_string (json key : List Char) (outlen : Nat) :
    Option (List Char) :=
  match strstrL json ('"' :: key ++ ['"']) with
  | none => none
  | some s =>
    match strchr (s.drop (key.length + 2)) ':' with
    | none => none
    | some s2 =>
      match skipSpTab (s2.drop 1) with
      | '"' :: rest =>
        match strchr rest '"' with
        | none => none
        | some tailq => some ((rest.take (rest.length - tailq.length)).take (outlen - 1))
      | _ => none

/-- `json_get_int`: locate `"key"`, the colon, skip spaces/tabs, `atoi`. -/
def json_get_int (json key : List Char) : Option Int :=
  match strstrL json ('"' :: key ++ ['"']) with
  | none => none
  | some s =>
    match strchr (s.drop (key.length + 2)) ':' with
    | none => none
    | some s2 => some (atoiM (skipSpTab (s2.drop 1)))

/-- `json_get_bool`: like `json_get_int` but requiring a literal
`true` / `false`. -/
def json_get_bool (json key : List Char) : Option Bool :=
  match strstrL json ('"' :: key ++ ['"']) with
  | none => none
  | some s =>
    match strchr (s.drop (key.length + 2)) ':' with
    | none => none
    | some s2 =>
      let v := skipSpTab (s2.drop 1)
      if ("true").data.isPrefixOf v then some true
      else if ("false").data.isPrefixOf v then some false
      else none

/-- `stratum_handle_message`: dispatch one received line.  The returned
flag is `false` for the C `-1` (which makes `stratum_process`
disconnect).  Outbound sends are external; `stratum_authorize` is
modelled by its state/counter effects. -/
def stratum_handle_message (ctx : StratumCtx) (msg : List Char) :
    StratumCtx × Bool :=
  match json_get_string msg ("method").data 64 with
  | some mth =>
    if mth = ("mining.notify").data then
      match strstrL msg ("\"params\"").data with
      | some params =>
        match stratum_parse_job ctx.pending params with
        | some job => ({ ctx with pending := job }, true)
        | none => (ctx, true)
      | none => (ctx, true)
    else if mth = ("mining.set_difficulty").data then
      match strstrL msg ("\"params\"").data with
      | some params =>
        match strchr params '[' with
        | some q =>
          if 0 < atoiM (q.drop 1) then
            ({ ctx with difficulty := atoiM (q.drop 1) }, true)
          else (ctx, true)
        | none => (ctx, true)
      | none => (ctx, true)
    else (ctx, true)
  | none =>
    match json_get_int msg ("id").data with
    | none => (ctx, true)
    | some _ =>
      if ctx.state = STRATUM_SUBSCRIBING then
        match strstrL msg ("\"result\"").data with
        | some _ =>
          ({ ctx with state := STRATUM_AUTHORIZING, msg_id := ctx.msg_id + 1 },
           true)
        | none => (ctx, false)
      else if ctx.state = STRATUM_AUTHORIZING then
        match json_get_bool msg ("result").data with
        | some true => ({ ctx with state := STRATUM_CONNECTED }, true)
        | _ =>
          if (strstrL msg ("\"result\":true").data).isSome ∨
             (strstrL msg ("\"result\": true").data).isSome then
            ({ ctx with state := STRATUM_CONNECTED }, true)
          else (ctx, false)
      else
        match json_get_bool msg ("result").data with
        | some true => ({ ctx with accepted := ctx.accepted + 1 }, true)
        | some false => ({ ctx with rejected := ctx.rejected + 1 }, true)
        | none =>
          if (strstrL msg ("\"result\":true").data).isSome ∨
             (strstrL msg ("\"result\": true").data).isSome then
            ({ ctx with accepted := ctx.accepted + 1 }, true)
          else (ctx, true)

/-- Handle a sequence of received lines in arrival order. -/
def stratum_run (ctx : StratumCtx) (msgs : List (List Char)) : StratumCtx :=
  msgs.foldl (fun c m => (stratum_handle_message c m).1) ctx

/-- Decimal rendering of a nonnegative integer (`%d`), fuelled. -/
def natDecAux : Nat → Nat → List Char
  | 0, _ => []
  | f + 1, n => if n < 10 then [hexChar n] else natDecAux f (n / 10) ++ [hexChar (n % 10)]

/-- Decimal rendering of a `Nat` (`snprintf` `%d` of a nonnegative id). -/
def natDec (n : Nat) : List Char := natDecAux (n + 1) n

/-- `stratum_submit`: format and send one `mining.submit` line; `none`
is the C `-1` (not connected).  The sent line is the `snprintf` output,
truncated to the 1024-byte message buffer (1023 characters + NUL). -/
def stratum_submit (ctx : StratumCtx) (job_id : List Char)
    (nonce hash : Bytes) : Option (List Char × StratumCtx) :=
  if ctx.sd < 0 ∨ ctx.state ≠ STRATUM_CONNECTED then none
  else
    let line :=
      ("\x7b\"id\":").data ++ natDec ctx.msg_id ++
      (",\"method\":\"mining.submit\",\"params\":[\"").data ++
      ctx.wallet ++ ['.'] ++ ctx.worker ++
      ("\",\"").data ++ job_id ++
      ("\",\"").data ++ bytes_to_hex (nonce.take 32) ++
      ("\",\"").data ++ bytes_to_hex (hash.take 32) ++
      ("\"]\x7d").data ++ ['\n']
    some (line.take 1023, { ctx with msg_id := ctx.msg_id + 1 })

/-- `stratum_get_job`: copy the pending job to current and project it
into a zeroed `BTRAILER` (phash, bnum, mroot, difficulty byte 0 and the
4 time0 bytes). -/
def stratum_get_job (ctx : StratumCtx) : Option (StratumCtx × Bytes) :=
  if ctx.pending.valid = 0 then none
  else
    some ({ ctx with current := ctx.pending },
      overwrite (overwrite (overwrite (overwrite (overwrite (zeros 160)
        0 (ctx.pending.phash.take 32)) 64 (ctx.pending.bnum.take 8))
        32 (ctx.pending.mroot.take 32)) 72 [ctx.pending.difficulty0])
        80 (ctx.pending.time0.take 4))

/-! ### A small JSON recognizer

Used only to state "the submitted line is valid JSON": a conservative
recursive-descent recognizer for a core of RFC 8259 (strings without
escapes, nonnegative integer numbers, arrays, objects, literals).
Acceptance by this recognizer implies validity, which is the direction
the claims need. -/

/-- Consume the remainder of a JSON string after its opening quote
(no escape sequences). -/
def jsonStringRest : List Char → Option (List Char)
  | [] => none
  | c :: r => if c = '"' then some r
              else if c = '\\' then none
              else jsonStringRest r

/-- Consume leading decimal digits. -/
def dropDigs : List Char → List Char
  | [] => []
  | c :: r => if c.isDigit then dropDigs r else c :: r

mutual

/-- Consume one JSON value; the fuel bounds nesting and member counts. -/
def jsonVal : Nat → List Char → Option (List Char)
  | 0, _ => none
  | f + 1, s =>
    match s with
    | [] => none
    | c :: r =>
      if c = '"' then jsonStringRest r
      else if c = '[' then jsonArrItems f r
      else if c = '\x7b' then jsonObjItems f r
      else if c.isDigit then some (dropDigs r)
      else if ("true").data.isPrefixOf (c :: r) then some ((c :: r).drop 4)
      else if ("false").data.isPrefixOf (c :: r) then some ((c :: r).drop 5)
      else if ("null").data.isPrefixOf (c :: r) then some ((c :: r).drop 4)
      else none

/-- Consume the items of a nonempty JSON array after its `[`. -/
def jsonArrItems : Nat → List Char → Option (List Char)
  | 0, _ => none
  | f + 1, s =>
    match jsonVal f s with
    | none => none
    | some r =>
      match r with
      | ',' :: r2 => jsonArrItems f r2
      | ']' :: r2 => some r2
      | _ => none

/-- Consume the members of a nonempty JSON object after its `{`. -/
def jsonObjItems : Nat → List Char → Option (List Char)
  | 0, _ => none
  | f + 1, s =>
    match s with
    | '"' :: r =>
      match jsonStringRest r with
      | none => none
      | some r2 =>
        match r2 with
        | ':' :: r3 =>
          match jsonVal f r3 with
          | none => none
          | some r4 =>
            match r4 with
            | ',' :: r5 => jsonObjItems f r5
            | '\x7d' :: r5 => some r5
            | _ => none
        | _ => none
    | _ => none

end

/-- A whole character list is one JSON value. -/
def isJson (s : List Char) : Bool := jsonVal 32 s = some []

/-- Characters that may sit inside a rendered JSON string without
escaping (and are not a newline). -/
def jsonSafe (c : Char) : Bool := c ≠ '"' ∧ c ≠ '\\' ∧ c ≠ '\n'

/-! ### Concrete test vectors (used by witnesses and counterexamples) -/

/-- A work-available block trailer: phash `0x11…`, mroot `0xbb…`,
bnum 1, difficulty byte 8, time0 100, tcount 3. -/
def btW : Bytes :=
  List.replicate 32 17 ++ List.replicate 32 187 ++ [1, 0, 0, 0, 0, 0, 0, 0] ++
  [8, 0, 0, 0, 0, 0, 0, 0] ++ [100, 0, 0, 0] ++ [3, 0, 0, 0] ++ [0, 0, 0, 0] ++
  List.replicate 32 0 ++ List.replicate 36 0

/-- `btW` with the transaction count zeroed. -/
def btTc0 : Bytes := overwrite btW 84 [0, 0, 0, 0]

/-- `btW` with a rotated previous hash (`0x22…`). -/
def bt22 : Bytes := overwrite btW 0 (List.replicate 32 34)

/-- An all-zero 160-byte output trailer. -/
def btoutZ : Bytes := zeros 160

/-- A small device configuration. -/
def cfgW : PeachCfg := ⟨1024, 1024, 256⟩

/-- A device configuration whose global size equals `PEACHCACHELEN`
(16 compute units × 256 × 256, a realistic mid-range GPU). -/
def cfgB : PeachCfg := ⟨1048576, 1048576, 256⟩

/-- A `DEV_WORK` state with a pending solve (`0xab…`) in both host
solve slots and `btW` in both host trailers. -/
def stW : PeachState :=
  { status := .DEV_WORK, work := 0, last := 100, hps := 0
    h_bt := fun _ => btW
    h_solve := fun _ => List.replicate 32 171
    d_solve := fun _ => zeros 32
    d_bt := fun _ => zeros 160
    d_phash := List.replicate 32 17 }

/-- A `DEV_WORK` state with no pending solve. -/
def stL : PeachState := { stW with h_solve := fun _ => zeros 32 }

/-- A fresh `DEV_INIT` state. -/
def stI : PeachState := { stL with status := .DEV_INIT, work := 0 }

/-- A `DEV_IDLE` state (gate test). -/
def stG : PeachState := { stL with status := .DEV_IDLE }

/-- A tick environment with neither queue ready. -/
def envNone (now : Nat) : PeachEnv :=
  { ready := fun _ => false, now := now
    seed := fun _ => zeros 16, solveOut := fun _ => none }

/-- The zero Stratum job slot (`memset` of `stratum_init`). -/
def jobZ : StratumJob := ⟨[], zeros 32, zeros 8, 0, zeros 4, zeros 32, 0, 0⟩

/-- A Stratum context as produced by `stratum_init` for wallet `W`,
worker `w`. -/
def ctx0 : StratumCtx :=
  { sd := -1, state := STRATUM_DISCONNECTED
    wallet := ("W").data, worker := ("w").data
    msg_id := 1, current := jobZ, pending := jobZ
    accepted := 0, rejected := 0, difficulty := 28 }

/-- `ctx0` connected (socket open, `STRATUM_CONNECTED`). -/
def ctxC : StratumCtx := { ctx0 with sd := 3, state := STRATUM_CONNECTED }

/-- The spec's notify test message (scenario 5), with the abbreviated
`aa..aa` / `bb..bb` hashes written out to 64 characters. -/
def msgC1 : List Char :=
  ("\x7b\"method\":\"mining.notify\",\"params\":[\"j1\",\"aaaaaaaaaaaaaaaaaaaaaaaaaaaaaaaaaaaaaaaaaaaaaaaaaaaaaaaaaaaaaaaa\",\"0100000000000000\",\"8\",\"66ddee00\",\"bbbbbbbbbbbbbbbbbbbbbbbbbbbbbbbbbbbbbbbbbbbbbbbbbbbbbbbbbbbbbbbb\",true]\x7d").data

/-- The suffix of `msgC1` located by `strstr(msg, "\"params\"")`, as
handed to `stratum_parse_job`. -/
def psC1 : List Char :=
  ("\"params\":[\"j1\",\"aaaaaaaaaaaaaaaaaaaaaaaaaaaaaaaaaaaaaaaaaaaaaaaaaaaaaaaaaaaaaaaa\",\"0100000000000000\",\"8\",\"66ddee00\",\"bbbbbbbbbbbbbbbbbbbbbbbbbbbbbbbbbbbbbbbbbbbbbbbbbbbbbbbbbbbbbbbb\",true]\x7d").data

/-- The job obtained by parsing `psC1` into the zero job slot (a
concrete handle for witnesses). -/
def jobC1 : StratumJob := (stratum_parse_job jobZ psC1).getD jobZ

/-- A Stratum context holding a fully populated valid pending job. -/
def ctxV : StratumCtx :=
  { ctx0 with pending :=
    { jobZ with valid := 1, phash := List.replicate 32 5
                bnum := [9, 0, 0, 0, 0, 0, 0, 0], difficulty0 := 8
                time0 := [1, 2, 3, 4], mroot := List.replicate 32 6 } }

/-! ## Helper lemmas -/

theorem hexLoop_false_iff (hex : List Char) :
    ∀ (k pos : Nat) (out : Bytes),
      (hexLoop hex out pos k).2 = false ↔
      ∃ j, j < k ∧ scan2x (hex.drop (2 * (pos + j))) = none := by
  intro k
  induction k with
  | zero => intro pos out; simp [hexLoop]
  | succ k ih =>
    intro pos out
    simp only [hexLoop]
    cases h : scan2x (hex.drop (2 * pos)) with
    | none =>
      constructor
      · intro _
        exact ⟨0, by omega, by simpa using h⟩
      · intro _
        rfl
    | some b =>
      rw [ih (pos + 1) (out.set pos (b % 256))]
      constructor
      · rintro ⟨j, hj, hs⟩
        refine ⟨j + 1, by omega, ?_⟩
        have e : pos + (j + 1) = pos + 1 + j := by omega
        rw [e]
        exact hs
      · rintro ⟨j, hj, hs⟩
        cases j with
        | zero =>
          rw [show pos + 0 = pos from rfl, h] at hs
          cases hs
        | succ j =>
          refine ⟨j, by omega, ?_⟩
          have e : pos + 1 + j = pos + (j + 1) := by omega
          rw [e]
          exact hs

/-! ## Claims -/

/-- C7 (corrected): `hex_to_bytes` fails exactly when, for some decoded
byte index `j`, the `%2x` scan at character position `2*j` finds no
hexadecimal digit after optional whitespace and an optional sign; a
non-hex character in a pair's second nibble position does not cause
failure. -/
theorem hex_to_bytes_fail_iff (hex : List Char) (out : Bytes) (outlen : Nat) :
    (hex_to_bytes hex out outlen).2 = none ↔
    ∃ j, j < min hex.length (outlen * 2) / 2 ∧
      scan2x (hex.drop (2 * j)) = none := by
  unfold hex_to_bytes
  have h := hexLoop_false_iff hex (min hex.length (outlen * 2) / 2) 0 out
  simp only [Nat.zero_add] at h
  rcases hl : hexLoop hex out 0 (min hex.length (outlen * 2) / 2) with ⟨o, b⟩
  rw [hl] at h
  cases b with
  | false =>
    exact iff_of_true rfl (h.mp rfl)
  | true =>
    refine iff_of_false (by simp) (fun hx => ?_)
    have := h.mpr hx
    simp at this

/-- C7 counterexample: the claim says hex decoding fails whenever a
character in a decoded nibble position is not a hexadecimal digit, but
`"1g"` (non-hex `g` in the second nibble of the only decoded pair) is
accepted, decoding to the single byte `0x01`. -/
theorem hex_to_bytes_accepts_nonhex :
    (hex_to_bytes ("1g").data [0] 1).2 = some 1 ∧
    (hex_to_bytes ("1g").data [0] 1).1 = [1] ∧ isHexDig 'g' = false := by
  decide

theorem overwrite_at (X Z v : Bytes) (off : Nat) (h : X.length = off) :
    overwrite (X ++ Z) off v = X ++ v ++ Z.drop v.length := by
  unfold overwrite
  subst h
  rw [List.take_left]
  rw [List.drop_append_eq_append_drop]
  rw [List.drop_eq_nil_of_le (by omega)]
  simp [List.append_assoc]

theorem zeros_append (a b : Nat) : zeros a ++ zeros b = zeros (a + b) := by
  unfold zeros
  rw [List.replicate_add]

theorem overwrite_mid (X : Bytes) (m off : Nat) (v : Bytes)
    (hX : X.length ≤ off) (hm : off - X.length ≤ m) :
    overwrite (X ++ zeros m) off v =
      X ++ zeros (off - X.length) ++ v ++ zeros (m - (off - X.length) - v.length) := by
  have e : zeros m = zeros (off - X.length) ++ zeros (m - (off - X.length)) := by
    rw [zeros_append]
    congr 1
    omega
  rw [e, ← List.append_assoc]
  have hlen : (X ++ zeros (off - X.length)).length = off := by
    simp [zeros]
    omega
  rw [overwrite_at _ _ _ _ hlen]
  congr 1
  simp only [zeros, List.drop_replicate]

/-- C10 (confirmed): a successful `stratum_get_job` copies the pending
job into `current_job` and projects it into a trailer that carries only
phash (offset 0), mroot (32), bnum (64), difficulty byte 0 (72) and the
four time0 bytes (80); every other byte — in particular the whole
transaction-count and nonce fields — is zero. -/
theorem stratum_get_job_frame (ctx : StratumCtx)
    (hv : ctx.pending.valid ≠ 0)
    (h1 : ctx.pending.phash.length = 32) (h2 : ctx.pending.bnum.length = 8)
    (h3 : ctx.pending.time0.length = 4) (h4 : ctx.pending.mroot.length = 32) :
    stratum_get_job ctx = some ({ ctx with current := ctx.pending },
      ctx.pending.phash ++ ctx.pending.mroot ++ ctx.pending.bnum ++
      [ctx.pending.difficulty0] ++ zeros 7 ++ ctx.pending.time0 ++ zeros 76) ∧
    ∀ ctx2 bt, stratum_get_job ctx = some (ctx2, bt) →
      ctx2.current = ctx.pending ∧
      btNonce bt = zeros 32 ∧ get32 (btTcount bt) = 0 ∧
      (bt.drop 73).take 7 = zeros 7 ∧ bt.drop 84 = zeros 76 := by
  have hb1 : overwrite (zeros 160) 0 ctx.pending.phash =
      ctx.pending.phash ++ zeros 128 := by
    have := overwrite_mid [] 160 0 ctx.pending.phash (by simp) (by simp)
    simpa [h1] using this
  have hb2 : overwrite (ctx.pending.phash ++ zeros 128) 64 ctx.pending.bnum =
      ctx.pending.phash ++ zeros 32 ++ ctx.pending.bnum ++ zeros 88 := by
    rw [overwrite_mid _ _ _ _ (by omega) (by omega)]
    rw [h1, h2]
  have hb3 : overwrite
      (ctx.pending.phash ++ zeros 32 ++ ctx.pending.bnum ++ zeros 88) 32
      ctx.pending.mroot =
      ctx.pending.phash ++ ctx.pending.mroot ++ ctx.pending.bnum ++ zeros 88 := by
    have e : ctx.pending.phash ++ zeros 32 ++ ctx.pending.bnum ++ zeros 88 =
        ctx.pending.phash ++ (zeros 32 ++ ctx.pending.bnum ++ zeros 88) := by
      simp [List.append_assoc]
    rw [e, overwrite_at _ _ _ _ h1, h4]
    have e2 : (zeros 32 ++ ctx.pending.bnum ++ zeros 88).drop 32 =
        ctx.pending.bnum ++ zeros 88 := by
      rw [List.append_assoc, List.drop_left' (by simp [zeros])]
    rw [e2]
    simp [List.append_assoc]
  have hb4 : overwrite
      (ctx.pending.phash ++ ctx.pending.mroot ++ ctx.pending.bnum ++ zeros 88)
      72 [ctx.pending.difficulty0] =
      ctx.pending.phash ++ ctx.pending.mroot ++ ctx.pending.bnum ++
        [ctx.pending.difficulty0] ++ zeros 87 := by
    have e : ctx.pending.phash ++ ctx.pending.mroot ++ ctx.pending.bnum ++ zeros 88 =
        (ctx.pending.phash ++ ctx.pending.mroot ++ ctx.pending.bnum) ++ zeros 88 := by
      simp [List.append_assoc]
    rw [e, overwrite_at _ _ _ _ (by simp [h1, h2, h4])]
    simp [zeros, List.append_assoc]
  have hb5 : overwrite
      (ctx.pending.phash ++ ctx.pending.mroot ++ ctx.pending.bnum ++
        [ctx.pending.difficulty0] ++ zeros 87) 80 ctx.pending.time0 =
      ctx.pending.phash ++ ctx.pending.mroot ++ ctx.pending.bnum ++
        [ctx.pending.difficulty0] ++ zeros 7 ++ ctx.pending.time0 ++ zeros 76 := by
    have e : ctx.pending.phash ++ ctx.pending.mroot ++ ctx.pending.bnum ++
        [ctx.pending.difficulty0] ++ zeros 87 =
        (ctx.pending.phash ++ ctx.pending.mroot ++ ctx.pending.bnum ++
          [ctx.pending.difficulty0]) ++ zeros 87 := by
      simp [List.append_assoc]
    have hl : (ctx.pending.phash ++ ctx.pending.mroot ++ ctx.pending.bnum ++
        [ctx.pending.difficulty0]).length = 73 := by
      simp [h1, h2, h4]
    rw [e, overwrite_mid _ _ _ _ (by omega) (by omega)]
    rw [hl, h3]
  have hmain : stratum_get_job ctx = some ({ ctx with current := ctx.pending },
      ctx.pending.phash ++ ctx.pending.mroot ++ ctx.pending.bnum ++
      [ctx.pending.difficulty0] ++ zeros 7 ++ ctx.pending.time0 ++ zeros 76) := by
    unfold stratum_get_job
    rw [if_neg hv]
    have htk : ∀ (l : Bytes) (n : Nat), l.length = n → l.take n = l := by
      intro l n hn
      exact List.take_of_length_le (le_of_eq hn)
    rw [htk _ _ h1, htk _ _ h2, htk _ _ h4, htk _ _ h3]
    rw [hb1, hb2, hb3, hb4, hb5]
  refine ⟨hmain, ?_⟩
  intro ctx2 bt h
  rw [hmain] at h
  rw [Option.some_inj, Prod.mk.injEq] at h
  obtain ⟨he, hb⟩ := h
  subst he
  subst hb
  have h84 : (ctx.pending.phash ++ ctx.pending.mroot ++ ctx.pending.bnum ++
      [ctx.pending.difficulty0] ++ zeros 7 ++ ctx.pending.time0 ++
      zeros 76).drop 84 = zeros 76 := by
    have e : ctx.pending.phash ++ ctx.pending.mroot ++ ctx.pending.bnum ++
        [ctx.pending.difficulty0] ++ zeros 7 ++ ctx.pending.time0 ++ zeros 76 =
        (ctx.pending.phash ++ ctx.pending.mroot ++ ctx.pending.bnum ++
          [ctx.pending.difficulty0] ++ zeros 7 ++ ctx.pending.time0) ++
          zeros 76 := by
      simp [List.append_assoc]
    rw [e, List.drop_left' (by simp [h1, h2, h3, h4, zeros])]
  have h73 : (ctx.pending.phash ++ ctx.pending.mroot ++ ctx.pending.bnum ++
      [ctx.pending.difficulty0] ++ zeros 7 ++ ctx.pending.time0 ++
      zeros 76).drop 73 = zeros 7 ++ ctx.pending.time0 ++ zeros 76 := by
    have e : ctx.pending.phash ++ ctx.pending.mroot ++ ctx.pending.bnum ++
        [ctx.pending.difficulty0] ++ zeros 7 ++ ctx.pending.time0 ++ zeros 76 =
        (ctx.pending.phash ++ ctx.pending.mroot ++ ctx.pending.bnum ++
          [ctx.pending.difficulty0]) ++
          (zeros 7 ++ ctx.pending.time0 ++ zeros 76) := by
      simp [List.append_assoc]
    rw [e, List.drop_left' (by simp [h1, h2, h4])]
  refine ⟨rfl, ?_, ?_, ?_, h84⟩
  · unfold btNonce
    have hd : ((ctx.pending.phash ++ ctx.pending.mroot ++ ctx.pending.bnum ++
        [ctx.pending.difficulty0] ++ zeros 7 ++ ctx.pending.time0 ++
        zeros 76).drop 84).drop 8 =
        (ctx.pending.phash ++ ctx.pending.mroot ++ ctx.pending.bnum ++
        [ctx.pending.difficulty0] ++ zeros 7 ++ ctx.pending.time0 ++
        zeros 76).drop 92 := by
      rw [List.drop_drop]
    rw [← hd, h84]
    simp [zeros, List.drop_replicate, List.take_replicate]
  · unfold get32 btTcount
    rw [h84]
    decide
  · rw [h73, List.append_assoc]
    rw [List.take_left' (by simp [zeros])]

theorem parse_job_store (job : StratumJob) (params : List Char) (j' : StratumJob)
    (h : stratum_parse_job job params = some j') :
    ∃ f, parseFields params = some f ∧ j' = storeJob job f := by
  unfold stratum_parse_job at h
  cases hf : parseFields params with
  | none => rw [hf] at h; cases h
  | some f =>
    rw [hf] at h
    simp only [Option.map] at h
    exact ⟨f, rfl, (Option.some_inj.mp h).symm⟩

theorem storeJob_job_seq (job : StratumJob) (f : JobFields) :
    (storeJob job f).job_seq = job.job_seq + 1 := rfl

theorem handle_job_seq_mono (c : StratumCtx) (m : List Char) :
    c.pending.job_seq ≤ (stratum_handle_message c m).1.pending.job_seq := by
  unfold stratum_handle_message
  repeat' split
  all_goals try exact Nat.le_refl _
  rename_i j hj
  obtain ⟨f, _, hst⟩ := parse_job_store _ _ _ hj
  subst hst
  show c.pending.job_seq ≤ (storeJob c.pending f).job_seq
  rw [storeJob_job_seq]
  omega

theorem run_job_seq_mono (ctx : StratumCtx) (msgs : List (List Char)) :
    ctx.pending.job_seq ≤ (stratum_run ctx msgs).pending.job_seq := by
  induction msgs generalizing ctx with
  | nil => exact Nat.le_refl _
  | cons m ms ih =>
    calc ctx.pending.job_seq
        ≤ (stratum_handle_message ctx m).1.pending.job_seq :=
          handle_job_seq_mono ctx m
      _ ≤ (stratum_run (stratum_handle_message ctx m).1 ms).pending.job_seq :=
          ih _
      _ = (stratum_run ctx (m :: ms)).pending.job_seq := rfl

/-- C9 (confirmed): every successfully parsed `mining.notify` increments
`pending.job_seq` by exactly one — a second, byte-identical notify
parses again and yields `job_seq + 2` — and over any sequence of handled
messages `pending.job_seq` is monotonically non-decreasing. -/
theorem pending_job_seq_monotone :
    (∀ (job : StratumJob) (params : List Char) (j' : StratumJob),
      stratum_parse_job job params = some j' →
      j'.job_seq = job.job_seq + 1 ∧
      ∃ j2, stratum_parse_job j' params = some j2 ∧
        j2.job_seq = job.job_seq + 2) ∧
    (∀ (ctx : StratumCtx) (msgs : List (List Char)),
      ctx.pending.job_seq ≤ (stratum_run ctx msgs).pending.job_seq) := by
  constructor
  · intro job params j' h
    obtain ⟨f, hf, hst⟩ := parse_job_store _ _ _ h
    refine ⟨by rw [hst, storeJob_job_seq], storeJob j' f, ?_, ?_⟩
    · unfold stratum_parse_job
      rw [hf]
      rfl
    · rw [storeJob_job_seq, hst, storeJob_job_seq]
  · exact run_job_seq_mono

set_option maxRecDepth 40000 in
/-- C9 witness: the spec's notify message applied twice from the zero
job, and a one-message run from the initial context. -/
theorem pending_job_seq_monotone_witness :
    stratum_parse_job jobZ psC1 = some jobC1 ∧
    jobC1.job_seq = jobZ.job_seq + 1 ∧
    (∃ j2, stratum_parse_job jobC1 psC1 = some j2 ∧
      j2.job_seq = jobZ.job_seq + 2) ∧
    ctx0.pending.job_seq ≤ (stratum_run ctx0 [msgC1]).pending.job_seq := by
  have hp : stratum_parse_job jobZ psC1 = some jobC1 := by decide
  have h := pending_job_seq_monotone.1 jobZ psC1 jobC1 hp
  exact ⟨hp, h.1, h.2, pending_job_seq_monotone.2 ctx0 [msgC1]⟩

/-- C10 witness: a concrete valid pending job projected by
`stratum_get_job`. -/
theorem stratum_get_job_frame_witness :
    ctxV.pending.valid ≠ 0 ∧
    (∃ p, stratum_get_job ctxV = some p ∧ btNonce p.2 = zeros 32 ∧
      get32 (btTcount p.2) = 0) := by
  have h := stratum_get_job_frame ctxV (by decide) (by decide) (by decide)
    (by decide) (by decide)
  have h2 := h.2 _ _ h.1
  exact ⟨by decide, ⟨_, h.1, h2.2.1, h2.2.2.1⟩⟩

theorem handle_notify (ctx : StratumCtx) (msg ps : List Char) (j : StratumJob)
    (hm : json_get_string msg ("method").data 64 = some (("mining.notify").data))
    (hp : strstrL msg ("\"params\"").data = some ps)
    (hj : stratum_parse_job ctx.pending ps = some j) :
    stratum_handle_message ctx msg = ({ ctx with pending := j }, true) := by
  unfold stratum_handle_message
  rw [hm, hp]
  simp [hj]

set_option maxRecDepth 40000 in
/-- C1 (corrected): the spec's notify test message sets
`pending.valid = 1`, increments `job_seq`, and stores
`difficulty[0] = 8`; but the unquoted-hex `time0` field `"66ddee00"`
has no `0x` prefix and is parsed by `strtoul(..., 10)` as the decimal
prefix `66`, so `time0` stores the little-endian bytes of 66 —
`42 00 00 00` — not `00 ee dd 66`. -/
theorem notify_parse_c1 (ctx : StratumCtx) :
    ((stratum_handle_message ctx msgC1).1.pending.valid = 1) ∧
    ((stratum_handle_message ctx msgC1).1.pending.job_seq =
      ctx.pending.job_seq + 1) ∧
    ((stratum_handle_message ctx msgC1).1.pending.difficulty0 = 8) ∧
    ((stratum_handle_message ctx msgC1).1.pending.time0 = [66, 0, 0, 0]) := by
  have hm : json_get_string msgC1 ("method").data 64 =
      some (("mining.notify").data) := by decide
  have hp : strstrL msgC1 ("\"params\"").data = some psC1 := by decide
  have hf : parseFields psC1 = some
      ⟨("j1").data,
       ("aaaaaaaaaaaaaaaaaaaaaaaaaaaaaaaaaaaaaaaaaaaaaaaaaaaaaaaaaaaaaaaa").data,
       ("0100000000000000").data, ("8").data, ("66ddee00").data,
       ("bbbbbbbbbbbbbbbbbbbbbbbbbbbbbbbbbbbbbbbbbbbbbbbbbbbbbbbbbbbbbbbb").data⟩ := by
    decide
  have hj : stratum_parse_job ctx.pending psC1 = some (storeJob ctx.pending
      ⟨("j1").data,
       ("aaaaaaaaaaaaaaaaaaaaaaaaaaaaaaaaaaaaaaaaaaaaaaaaaaaaaaaaaaaaaaaa").data,
       ("0100000000000000").data, ("8").data, ("66ddee00").data,
       ("bbbbbbbbbbbbbbbbbbbbbbbbbbbbbbbbbbbbbbbbbbbbbbbbbbbbbbbbbbbbbbbb").data⟩) := by
    unfold stratum_parse_job
    rw [hf]
    rfl
  rw [handle_notify ctx msgC1 psC1 _ hm hp hj]
  exact ⟨rfl, rfl, rfl, rfl⟩

set_option maxRecDepth 40000 in
/-- C1 counterexample: from the freshly initialised context, the claimed
`time0` bytes `00 ee dd 66` (hexadecimal parse of `66ddee00`) do not
match what the code stores. -/
theorem notify_parse_c1_counterexample :
    (stratum_handle_message ctx0 msgC1).1.pending.time0 = [66, 0, 0, 0] ∧
    (stratum_handle_message ctx0 msgC1).1.pending.time0 ≠ [0, 238, 221, 102] := by
  decide

/-! Peach tick reduction lemmas. -/

theorem peachTick_work (cfg : PeachCfg) (st : PeachState) (env : PeachEnv)
    (bt btout : Bytes) (diff : Nat) (h : st.status = .DEV_WORK) :
    peachTick cfg st env bt btout diff =
      { res := (workIter cfg env bt diff (workIter cfg env bt diff
          ⟨st, btout, fun i => !(env.ready i), none, false, []⟩ false) true).done.getD .VERROR
        st := (workIter cfg env bt diff (workIter cfg env bt diff
          ⟨st, btout, fun i => !(env.ready i), none, false, []⟩ false) true).st
        btout := (workIter cfg env bt diff (workIter cfg env bt diff
          ⟨st, btout, fun i => !(env.ready i), none, false, []⟩ false) true).btout
        buildLog := []
        solveLog := (workIter cfg env bt diff (workIter cfg env bt diff
          ⟨st, btout, fun i => !(env.ready i), none, false, []⟩ false) true).solveLog } := by
  unfold peachTick idleGate
  simp only [h, DevStatus.unusable, reduceCtorEq, reduceIte, if_false]

theorem workIter_log (cfg : PeachCfg) (env : PeachEnv) (bt : Bytes)
    (diff : Nat) (a : WorkAcc) (id : Bool) :
    (workIter cfg env bt diff a id).solveLog = a.solveLog ∨
    (workIter cfg env bt diff a id).solveLog = a.solveLog ++
      [(id, if diff ≠ 0 ∧ diff < btDiff0 bt then diff else btDiff0 bt)] := by
  unfold workIter
  split
  · exact Or.inl rfl
  split
  · exact Or.inl rfl
  split
  · exact Or.inl rfl
  split
  · exact Or.inl rfl
  split
  · exact Or.inl rfl
  · exact Or.inr rfl

theorem two_workIter_log (cfg : PeachCfg) (env : PeachEnv) (bt : Bytes)
    (diff : Nat) (a : WorkAcc) (ha : a.solveLog = []) (p : Bool × Nat)
    (hp : p ∈ (workIter cfg env bt diff (workIter cfg env bt diff a false)
      true).solveLog) :
    p.2 = if diff = 0 then btDiff0 bt else min diff (btDiff0 bt) := by
  have hform : ∀ q : Bool × Nat,
      q = (q.1, if diff ≠ 0 ∧ diff < btDiff0 bt then diff else btDiff0 bt) →
      q.2 = if diff = 0 then btDiff0 bt else min diff (btDiff0 bt) := by
    rintro q hq
    rw [hq]
    by_cases h0 : diff = 0
    · simp [h0]
    · by_cases hlt : diff < btDiff0 bt
      · simp [h0, hlt, Nat.min_eq_left (Nat.le_of_lt hlt)]
      · simp [h0, hlt, Nat.min_eq_right (Nat.le_of_not_lt hlt)]
  rcases workIter_log cfg env bt diff (workIter cfg env bt diff a false) true
      with h2 | h2 <;>
    rw [h2] at hp <;>
    rcases workIter_log cfg env bt diff a false with h1 | h1 <;>
    rw [h1, ha] at hp <;>
    simp only [List.mem_append, List.mem_singleton, List.not_mem_nil,
      List.nil_append, false_or] at hp
  · exact hform p (by rw [hp])
  · exact hform p (by rw [hp])
  · rcases hp with hp | hp <;> exact hform p (by rw [hp])

/-- C3 (confirmed): every solve-kernel launch passes the difficulty
argument `min(diff_floor, bt.difficulty[0])` when the caller's
`diff_floor` is non-zero, and `bt.difficulty[0]` when it is zero. -/
theorem solve_difficulty_argument (cfg : PeachCfg) (st : PeachState)
    (env : PeachEnv) (bt btout : Bytes) (diff : Nat) (p : Bool × Nat)
    (hp : p ∈ (peachTick cfg st env bt btout diff).solveLog) :
    p.2 = if diff = 0 then btDiff0 bt else min diff (btDiff0 bt) := by
  unfold peachTick at hp
  by_cases hu : st.status.unusable
  · rw [if_pos hu] at hp
    simp at hp
  rw [if_neg hu] at hp
  dsimp only at hp
  split at hp <;> split at hp
  · exact two_workIter_log cfg env bt diff _ rfl p hp
  · simp at hp
  · exact two_workIter_log cfg env bt diff _ rfl p hp
  · simp at hp

/-- C3 witness: a working tick at `diff_floor = 0` launches the solve
kernel with difficulty `btW.difficulty[0] = 8` on queue 0. -/
theorem solve_difficulty_argument_witness :
    (false, 8) ∈ (peachTick cfgW stL (envAll 100) btW btoutZ 0).solveLog ∧
    (false, 8).2 = if (0 : Nat) = 0 then btDiff0 btW else min 0 (btDiff0 btW) :=
  ⟨by decide, solve_difficulty_argument cfgW stL (envAll 100) btW btoutZ 0
    (false, 8) (by decide)⟩

/-! `DEV_WORK` loop branch lemmas. -/

theorem workIter_stop (cfg : PeachCfg) (env : PeachEnv) (bt : Bytes)
    (diff : Nat) (a : WorkAcc) (id : Bool)
    (h : a.brk = true ∨ a.done.isSome = true) :
    workIter cfg env bt diff a id = a := by
  unfold workIter
  rw [if_pos]
  rcases h with h | h
  · exact Or.inl h
  · exact Or.inr h

theorem workIter_skip (cfg : PeachCfg) (env : PeachEnv) (bt : Bytes)
    (diff : Nat) (a : WorkAcc) (id : Bool)
    (h1 : a.brk = false) (h2 : a.done = none)
    (h3 : qready env a.busy id = false) :
    workIter cfg env bt diff a id = a := by
  unfold workIter
  rw [if_neg (by simp [h1, h2]), if_pos (by simp [h3])]

theorem workIter_mismatch (cfg : PeachCfg) (env : PeachEnv) (bt : Bytes)
    (diff : Nat) (a : WorkAcc) (id : Bool)
    (h1 : a.brk = false) (h2 : a.done = none)
    (h3 : qready env a.busy id = true)
    (h4 : btPhash (a.st.h_bt id) ≠ btPhash bt) :
    workIter cfg env bt diff a id =
      { a with st := { a.st with status := .DEV_INIT, work := 0 },
               brk := true } := by
  unfold workIter
  rw [if_neg (by simp [h1, h2]), if_neg (by simp [h3]), if_pos h4]

theorem workIter_toIdle (cfg : PeachCfg) (env : PeachEnv) (bt : Bytes)
    (diff : Nat) (a : WorkAcc) (id : Bool)
    (h1 : a.brk = false) (h2 : a.done = none)
    (h3 : qready env a.busy id = true)
    (h4 : btPhash (a.st.h_bt id) = btPhash bt)
    (h5 : idleCond env bt a.btout) :
    workIter cfg env bt diff a id =
      { a with st := { a.st with status := .DEV_IDLE, work := 0 },
               brk := true } := by
  unfold workIter
  rw [if_neg (by simp [h1, h2]), if_neg (by simp [h3]),
    if_neg (by simp [h4]), if_pos h5]

theorem workIter_solve (cfg : PeachCfg) (env : PeachEnv) (bt : Bytes)
    (diff : Nat) (a : WorkAcc) (id : Bool)
    (h1 : a.brk = false) (h2 : a.done = none)
    (h3 : qready env a.busy id = true)
    (h4 : btPhash (a.st.h_bt id) = btPhash bt)
    (h5 : ¬ idleCond env bt a.btout)
    (h6 : le64 (a.st.h_solve id) ≠ 0) :
    workIter cfg env bt diff a id =
      { a with
        st := { a.st with
          h_bt := upd2 a.st.h_bt id (setNonce (a.st.h_bt id) (a.st.h_solve id))
          h_solve := upd2 a.st.h_solve id (zeros 32)
          d_solve := upd2 a.st.d_solve id (zeros 32) }
        btout := setNonce (a.st.h_bt id) (a.st.h_solve id)
        done := some .VEOK } := by
  unfold workIter
  rw [if_neg (by simp [h1, h2]), if_neg (by simp [h3]),
    if_neg (by simp [h4]), if_neg h5, if_pos h6]

theorem workIter_launch (cfg : PeachCfg) (env : PeachEnv) (bt : Bytes)
    (diff : Nat) (a : WorkAcc) (id : Bool)
    (h1 : a.brk = false) (h2 : a.done = none)
    (h3 : qready env a.busy id = true)
    (h4 : btPhash (a.st.h_bt id) = btPhash bt)
    (h5 : ¬ idleCond env bt a.btout)
    (h6 : le64 (a.st.h_solve id) = 0) :
    workIter cfg env bt diff a id =
      { a with
        st := { a.st with
          h_bt := upd2 a.st.h_bt id
            (setSeed (copy92 (a.st.h_bt id) bt) (env.seed id))
          d_bt := upd2 a.st.d_bt id
            ((setSeed (copy92 (a.st.h_bt id) bt) (env.seed id)).take 108 ++
              (a.st.d_bt id).drop 108)
          d_solve := upd2 a.st.d_solve id
            (match env.solveOut id with
             | none => a.st.d_solve id
             | some v => v)
          h_solve := upd2 a.st.h_solve id
            (match env.solveOut id with
             | none => a.st.d_solve id
             | some v => v)
          work := a.st.work + cfg.threads
          hps := (a.st.work + cfg.threads) /
            (if (env.now : Int) - (a.st.last : Int) = 0 then 1
             else (env.now : Int) - (a.st.last : Int)).toNat }
        busy := upd2 a.busy id true
        solveLog := a.solveLog ++
          [(id, if diff ≠ 0 ∧ diff < btDiff0 bt then diff
                else btDiff0 bt)] } := by
  unfold workIter
  rw [if_neg (by simp [h1, h2]), if_neg (by simp [h3]),
    if_neg (by simp [h4]), if_neg h5, if_neg (by simp [h6])]

/-! `DEV_INIT` loop branch lemmas. -/

theorem initIter_brk (cfg : PeachCfg) (env : PeachEnv) (bt : Bytes)
    (a : InitAcc) (id : Bool) (h : a.brk = true) :
    initIter cfg env bt a id = a := by
  unfold initIter
  rw [if_pos h]

theorem initIter_skip (cfg : PeachCfg) (env : PeachEnv) (bt : Bytes)
    (a : InitAcc) (id : Bool) (hbrk : a.brk = false)
    (hq : qready env a.busy id = false) :
    initIter cfg env bt a id = a := by
  unfold initIter
  rw [if_neg (by simp [hbrk]), if_pos (by simp [hq])]

theorem initIter_entry_blocked (cfg : PeachCfg) (env : PeachEnv) (bt : Bytes)
    (a : InitAcc) (id : Bool) (hbrk : a.brk = false)
    (hq : qready env a.busy id = true)
    (hw : a.st.work = 0) (hb : a.build = false)
    (hq2 : qready env a.busy (!id) = false) :
    initIter cfg env bt a id = { a with brk := true } := by
  unfold initIter
  simp [hbrk, hq, hw, hb, hq2]

theorem initIter_entry (cfg : PeachCfg) (env : PeachEnv) (bt : Bytes)
    (a : InitAcc) (id : Bool) (hbrk : a.brk = false)
    (hq : qready env a.busy id = true)
    (hw : a.st.work = 0) (hb : a.build = false)
    (hq2 : qready env a.busy (!id) = true) :
    initIter cfg env bt a id =
      { a with
        st := { a.st with
          d_solve := fun _ => zeros 32
          h_solve := fun _ => zeros 32
          h_bt := fun _ => bt
          d_phash := btPhash bt
          work := roundupTo (min PEACHCACHELEN cfg.globalWS) cfg.localWS }
        busy := upd2 (fun _ => false) id true
        build := true
        buildLog := a.buildLog ++
          [(id, roundupTo (min PEACHCACHELEN cfg.globalWS) cfg.localWS)] } := by
  unfold initIter
  simp [hbrk, hq, hw, hb, hq2, PEACHCACHELEN]

theorem initIter_launch (cfg : PeachCfg) (env : PeachEnv) (bt : Bytes)
    (a : InitAcc) (id : Bool) (hbrk : a.brk = false)
    (hq : qready env a.busy id = true)
    (hskip : ¬(a.st.work = 0 ∧ a.build = false))
    (hwb : a.st.work > 0 ∨ a.build = true)
    (hlt : a.st.work < PEACHCACHELEN) :
    initIter cfg env bt a id =
      { a with
        st := { a.st with work := a.st.work + roundupTo (min (PEACHCACHELEN - a.st.work) cfg.globalWS) cfg.localWS }
        busy := upd2 a.busy id true
        buildLog := a.buildLog ++ [(id, roundupTo (min (PEACHCACHELEN - a.st.work) cfg.globalWS) cfg.localWS)] } := by
  unfold initIter
  rw [if_neg (by simp [hbrk]), if_neg (by simp [hq]), if_neg hskip]
  rw [if_neg (by simp [hbrk])]
  rw [if_pos (show a.st.work > 0 ∨ a.build = true from hwb)]
  rw [if_pos hlt]

theorem initIter_complete (cfg : PeachCfg) (env : PeachEnv) (bt : Bytes)
    (a : InitAcc) (id : Bool) (hbrk : a.brk = false)
    (hq : qready env a.busy id = true)
    (hskip : ¬(a.st.work = 0 ∧ a.build = false))
    (hwb : a.st.work > 0 ∨ a.build = true)
    (hge : ¬ a.st.work < PEACHCACHELEN)
    (hq2 : qready env a.busy (!id) = true) :
    initIter cfg env bt a id =
      { a with
        st := { a.st with last := env.now, status := .DEV_IDLE, work := 0 }
        brk := true } := by
  unfold initIter
  rw [if_neg (by simp [hbrk]), if_neg (by simp [hq]), if_neg hskip]
  rw [if_neg (by simp [hbrk])]
  rw [if_pos (show a.st.work > 0 ∨ a.build = true from hwb)]
  rw [if_neg hge]
  rw [if_neg (by simp [hq2])]

theorem initIter_complete_blocked (cfg : PeachCfg) (env : PeachEnv)
    (bt : Bytes) (a : InitAcc) (id : Bool) (hbrk : a.brk = false)
    (hq : qready env a.busy id = true)
    (hskip : ¬(a.st.work = 0 ∧ a.build = false))
    (hwb : a.st.work > 0 ∨ a.build = true)
    (hge : ¬ a.st.work < PEACHCACHELEN)
    (hq2 : qready env a.busy (!id) = false) :
    initIter cfg env bt a id = { a with brk := true } := by
  unfold initIter
  rw [if_neg (by simp [hbrk]), if_neg (by simp [hq]), if_neg hskip]
  rw [if_neg (by simp [hbrk])]
  rw [if_pos (show a.st.work > 0 ∨ a.build = true from hwb)]
  rw [if_neg hge]
  rw [if_pos (by simp [hq2])]

theorem idleGate_notIdle (st : PeachState) (env : PeachEnv) (bt btout : Bytes)
    (h : st.status ≠ .DEV_IDLE) : idleGate st env bt btout = st := by
  unfold idleGate
  rw [if_neg h]

theorem peachTick_init_entry (cfg : PeachCfg) (st : PeachState)
    (env : PeachEnv) (bt btout : Bytes) (diff : Nat) (g1 g2 : Nat)
    (hst : st.status = .DEV_INIT) (hw : st.work = 0)
    (hr0 : env.ready false = true) (hr1 : env.ready true = true)
    (hg1 : g1 = roundupTo (min PEACHCACHELEN cfg.globalWS) cfg.localWS)
    (hg2 : g2 = roundupTo (min (PEACHCACHELEN - g1) cfg.globalWS) cfg.localWS) :
    peachTick cfg st env bt btout diff =
      ⟨.VERROR,
       { st with
         d_solve := fun _ => zeros 32
         h_solve := fun _ => zeros 32
         h_bt := fun _ => bt
         d_phash := btPhash bt
         work := if g1 < PEACHCACHELEN then g1 + g2 else g1 },
       btout,
       if g1 < PEACHCACHELEN then [(false, g1), (true, g2)]
       else [(false, g1)],
       []⟩ := by
  subst hg2
  subst hg1
  unfold peachTick
  rw [if_neg (by simp [hst, DevStatus.unusable])]
  dsimp only
  rw [if_pos hst]
  rw [initIter_entry cfg env bt ⟨st, fun i => !(env.ready i), false, false, []⟩
    false rfl (by simp [qready, hr0]) hw rfl (by simp [qready, hr1])]
  by_cases hc : roundupTo (min PEACHCACHELEN cfg.globalWS) cfg.localWS <
      PEACHCACHELEN
  · rw [initIter_launch cfg env bt _ true rfl
      (by simp [qready, upd2, hr1]) (by simp) (Or.inr rfl) hc]
    rw [idleGate_notIdle _ _ _ _ (by simp [hst])]
    rw [if_neg (by simp [hst])]
    simp [hc]
  · rw [initIter_complete_blocked cfg env bt _ true rfl
      (by simp [qready, upd2, hr1]) (by simp) (Or.inr rfl) hc
      (by simp [qready, upd2])]
    rw [idleGate_notIdle _ _ _ _ (by simp [hst])]
    rw [if_neg (by simp [hst])]
    simp [hc]

theorem initIter_status (cfg : PeachCfg) (env : PeachEnv) (bt : Bytes)
    (a : InitAcc) (id : Bool) :
    (initIter cfg env bt a id).st.status = a.st.status ∨
    (initIter cfg env bt a id).st.status = .DEV_IDLE := by
  unfold initIter
  repeat' split
  all_goals try simp_all [PEACHCACHELEN]
  all_goals repeat' split
  all_goals simp_all

theorem initIter_preserves (cfg : PeachCfg) (env : PeachEnv) (bt : Bytes)
    (a : InitAcc) (id : Bool) (h : a.st.status ≠ .DEV_WORK) :
    (initIter cfg env bt a id).st.status ≠ .DEV_WORK := by
  rcases initIter_status cfg env bt a id with hs | hs <;> rw [hs]
  · exact h
  · simp

theorem idleGate_cases (st : PeachState) (env : PeachEnv) (bt btout : Bytes) :
    idleGate st env bt btout = st ∨
    (workAvail env bt btout ∧ idleGate st env bt btout =
      { st with last := env.now, status := .DEV_WORK, work := 0 }) := by
  unfold idleGate workAvail
  split_ifs with h1 h2 h3 h4
  · exact Or.inl rfl
  · exact Or.inl rfl
  · exact Or.inl rfl
  · exact Or.inr ⟨⟨h2, h3, by omega⟩, rfl⟩
  · exact Or.inl rfl

theorem workIter_log_tc0 (cfg : PeachCfg) (env : PeachEnv) (bt : Bytes)
    (diff : Nat) (a : WorkAcc) (id : Bool)
    (htc : get32 (btTcount bt) = 0) :
    (workIter cfg env bt diff a id).solveLog = a.solveLog ∧
    (workIter cfg env bt diff a id).done = a.done := by
  unfold workIter
  split_ifs with h1 h2 h3 h4 h5 h6
  all_goals try exact ⟨rfl, rfl⟩
  all_goals exact absurd (show idleCond env bt a.btout from Or.inl htc) h4

theorem workIter_done_none (cfg : PeachCfg) (env : PeachEnv) (bt : Bytes)
    (diff : Nat) (a : WorkAcc) (id : Bool) (h2 : a.done = none)
    (h6 : le64 (a.st.h_solve id) = 0) :
    (workIter cfg env bt diff a id).done = none := by
  unfold workIter
  split_ifs with h1 hq hm hi hs hd
  all_goals try exact h2
  all_goals exact absurd h6 hs

theorem workIter_frame_hsolve (cfg : PeachCfg) (env : PeachEnv) (bt : Bytes)
    (diff : Nat) (a : WorkAcc) (id j : Bool) (hj : j ≠ id) :
    (workIter cfg env bt diff a id).st.h_solve j = a.st.h_solve j := by
  unfold workIter
  split_ifs <;> simp [upd2, hj]

/-- C5 (corrected): the driver enters `DEV_WORK` only when the trailer
has transactions, a fresh block number, and `time0` within `BRIDGEv3`;
a `DEV_WORK` tick with a zero transaction count launches no kernel, and
transitions to IDLE provided some queue polls ready and the first ready
queue's host trailer still matches `bt.phash` — with no ready queue the
status remains `DEV_WORK`. -/
theorem work_gate (cfg : PeachCfg) (st : PeachState) (env : PeachEnv)
    (bt btout : Bytes) (diff : Nat) (id : Bool) :
    (st.status ≠ .DEV_WORK →
      (peachTick cfg st env bt btout diff).st.status = .DEV_WORK →
      workAvail env bt btout) ∧
    (st.status = .DEV_WORK → get32 (btTcount bt) = 0 →
      (peachTick cfg st env bt btout diff).solveLog = [] ∧
      (peachTick cfg st env bt btout diff).buildLog = [] ∧
      (firstReady env id → btPhash (st.h_bt id) = btPhash bt →
        (peachTick cfg st env bt btout diff).st.status = .DEV_IDLE)) := by
  constructor
  · intro hA hB
    unfold peachTick at hB
    by_cases hu : st.status.unusable = true
    · rw [if_pos hu] at hB
      exact absurd hB hA
    rw [if_neg hu] at hB
    dsimp only at hB
    split at hB
    · rename_i hinit
      have hi : (initIter cfg env bt (initIter cfg env bt
          ⟨st, fun i => !(env.ready i), false, false, []⟩ false)
          true).st.status ≠ .DEV_WORK := by
        apply initIter_preserves
        apply initIter_preserves
        show st.status ≠ .DEV_WORK
        exact hA
      split at hB
      · rename_i hg
        rcases idleGate_cases (initIter cfg env bt (initIter cfg env bt
            ⟨st, fun i => !(env.ready i), false, false, []⟩ false) true).st
            env bt btout with hcs | ⟨hav, _⟩
        · rw [hcs] at hg
          exact absurd hg hi
        · exact hav
      · rename_i hg
        exact absurd hB hg
    · split at hB
      · rename_i hg
        rcases idleGate_cases (⟨st, fun i => !(env.ready i), false, false,
            ([] : List (Bool × Nat))⟩ : InitAcc).st env bt btout with
            hcs | ⟨hav, _⟩
        · rw [hcs] at hg
          exact absurd hg hA
        · exact hav
      · rename_i hg
        exact absurd hB hg
  · intro hst htc
    rw [peachTick_work cfg st env bt btout diff hst]
    refine ⟨?_, rfl, ?_⟩
    · rw [(workIter_log_tc0 cfg env bt diff _ true htc).1,
        (workIter_log_tc0 cfg env bt diff _ false htc).1]
    · intro hfr hmatch
      cases id with
      | false =>
        have hr : env.ready false = true := hfr
        rw [workIter_toIdle cfg env bt diff _ false rfl rfl
          (by simp [qready, hr]) hmatch (Or.inl htc)]
        rw [workIter_stop cfg env bt diff _ true (Or.inl rfl)]
      | true =>
        obtain ⟨hr0, hr1⟩ := hfr
        rw [workIter_skip cfg env bt diff _ false rfl rfl
          (by simp [qready, hr0])]
        rw [workIter_toIdle cfg env bt diff _ true rfl rfl
          (by simp [qready, hr1]) hmatch (Or.inl htc)]

/-- C5 counterexample: a `DEV_WORK` tick with zero transaction count and
no ready queue does not transition to IDLE — the status stays
`DEV_WORK`, although the claim requires IDLE whenever `tcount` is
zero. -/
theorem work_gate_counterexample :
    stW.status = .DEV_WORK ∧ get32 (btTcount btTc0) = 0 ∧
    (peachTick cfgW stW (envNone 100) btTc0 btoutZ 0).st.status =
      .DEV_WORK := by
  decide

/-- C5 witness: gate entry from IDLE under a work-available trailer, and
the to-IDLE transition of a ready WORK tick with `tcount = 0`. -/
theorem work_gate_witness :
    workAvail (envAll 100) btW btoutZ ∧
    ((peachTick cfgW stL (envAll 100) btTc0 btoutZ 0).solveLog = [] ∧
     (peachTick cfgW stL (envAll 100) btTc0 btoutZ 0).buildLog = [] ∧
     (peachTick cfgW stL (envAll 100) btTc0 btoutZ 0).st.status =
       .DEV_IDLE) := by
  have hA := (work_gate cfgW stG (envAll 100) btW btoutZ 0 false).1
    (by decide) (by decide)
  have hB := (work_gate cfgW stL (envAll 100) btTc0 btoutZ 0 false).2
    rfl (by decide)
  exact ⟨hA, hB.1, hB.2.1, hB.2.2 rfl (by decide)⟩

/-- C4 (confirmed): in `DEV_WORK`, when the first ready queue's host
trailer no longer matches the caller's `bt.phash`, the tick sets status
to `DEV_INIT`, resets `work` to 0, launches no solve kernel, and
returns NO_SOLVE (`VERROR`); the next tick's build entry (both queues
ready) zeroes both device and both host solve buffers. -/
theorem phash_change_reinit (cfg : PeachCfg) (st : PeachState)
    (env env2 : PeachEnv) (bt btout : Bytes) (diff : Nat) (id : Bool)
    (hst : st.status = .DEV_WORK)
    (hfr : firstReady env id)
    (hmm : btPhash (st.h_bt id) ≠ btPhash bt)
    (hr0 : env2.ready false = true) (hr1 : env2.ready true = true) :
    (peachTick cfg st env bt btout diff).res = .VERROR ∧
    (peachTick cfg st env bt btout diff).st.status = .DEV_INIT ∧
    (peachTick cfg st env bt btout diff).st.work = 0 ∧
    (peachTick cfg st env bt btout diff).solveLog = [] ∧
    ∀ i, (peachTick cfg (peachTick cfg st env bt btout diff).st env2 bt btout
            diff).st.h_solve i = zeros 32 ∧
         (peachTick cfg (peachTick cfg st env bt btout diff).st env2 bt btout
            diff).st.d_solve i = zeros 32 := by
  have hT1 : peachTick cfg st env bt btout diff =
      ⟨.VERROR, { st with status := .DEV_INIT, work := 0 }, btout, [], []⟩ := by
    rw [peachTick_work cfg st env bt btout diff hst]
    cases id with
    | false =>
      have hr : env.ready false = true := hfr
      rw [workIter_mismatch cfg env bt diff _ false rfl rfl
        (by simp [qready, hr]) hmm]
      rw [workIter_stop cfg env bt diff _ true (Or.inl rfl)]
      rfl
    | true =>
      obtain ⟨hq0, hq1⟩ := hfr
      rw [workIter_skip cfg env bt diff _ false rfl rfl
        (by simp [qready, hq0])]
      rw [workIter_mismatch cfg env bt diff _ true rfl rfl
        (by simp [qready, hq1]) hmm]
      rfl
  rw [hT1]
  refine ⟨rfl, rfl, rfl, rfl, ?_⟩
  intro i
  rw [peachTick_init_entry cfg _ env2 bt btout diff _ _ rfl rfl hr0 hr1 rfl
    rfl]
  exact ⟨rfl, rfl⟩

/-- C4 witness: a phash rotation from `0x11…` to `0x22…` in `DEV_WORK`,
followed by an all-ready build entry. -/
theorem phash_change_reinit_witness :
    (peachTick cfgW stW (envAll 100) bt22 btoutZ 0).res = .VERROR ∧
    (peachTick cfgW stW (envAll 100) bt22 btoutZ 0).st.status = .DEV_INIT ∧
    (peachTick cfgW (peachTick cfgW stW (envAll 100) bt22 btoutZ 0).st
      (envAll 101) bt22 btoutZ 0).st.h_solve false = zeros 32 := by
  have h := phash_change_reinit cfgW stW (envAll 100) (envAll 101) bt22
    btoutZ 0 false rfl rfl (by decide) rfl rfl
  exact ⟨h.1, h.2.1, (h.2.2.2.2 false).1⟩

/-- C2 (confirmed): a `DEV_WORK` tick that reaches a ready queue whose
host-solve buffer has a non-zero 8-byte prefix copies the 32 solve
bytes into that queue's host-trailer nonce field, copies the whole
trailer to `out_bt`, zeroes that queue's device and host solve buffers
and returns SOLVE (`VEOK`); and with every host-solve prefix zero no
SOLVE is returned — the non-zero prefix is exactly the pending-solve
condition and the SOLVE path's clearing is its only dequeue. -/
theorem solve_detect_and_dequeue :
    (∀ (cfg : PeachCfg) (st : PeachState) (env : PeachEnv)
       (bt btout : Bytes) (diff : Nat) (id : Bool),
      st.status = .DEV_WORK →
      env.ready id = true →
      btPhash (st.h_bt id) = btPhash bt →
      workAvail env bt btout →
      le64 (st.h_solve id) ≠ 0 →
      (id = true → env.ready false = false ∨
        (btPhash (st.h_bt false) = btPhash bt ∧
         le64 (st.h_solve false) = 0)) →
      (peachTick cfg st env bt btout diff).res = .VEOK ∧
      (peachTick cfg st env bt btout diff).btout =
        setNonce (st.h_bt id) (st.h_solve id) ∧
      (peachTick cfg st env bt btout diff).st.h_bt id =
        setNonce (st.h_bt id) (st.h_solve id) ∧
      (peachTick cfg st env bt btout diff).st.h_solve id = zeros 32 ∧
      (peachTick cfg st env bt btout diff).st.d_solve id = zeros 32) ∧
    (∀ (cfg : PeachCfg) (st : PeachState) (env : PeachEnv)
       (bt btout : Bytes) (diff : Nat),
      st.status = .DEV_WORK →
      (∀ i, le64 (st.h_solve i) = 0) →
      (peachTick cfg st env bt btout diff).res = .VERROR) := by
  constructor
  · intro cfg st env bt btout diff id hst hr hmatch hav hnz hprev
    have hnic : ¬ idleCond env bt btout := by
      rintro (hc | hc | hc)
      · exact hav.1 hc
      · exact hav.2.1 hc
      · exact absurd hc (not_le.mpr hav.2.2)
    rw [peachTick_work cfg st env bt btout diff hst]
    cases id with
    | false =>
      rw [workIter_solve cfg env bt diff _ false rfl rfl
        (by simp [qready, hr]) hmatch hnic hnz,
        workIter_stop cfg env bt diff _ true]
      · exact ⟨rfl, rfl, by simp [upd2], by simp [upd2], by simp [upd2]⟩
      · exact Or.inr rfl
    | true =>
      rcases hprev rfl with hq0 | ⟨hm0, hz0⟩
      · rw [workIter_skip cfg env bt diff _ false rfl rfl
          (by simp [qready, hq0])]
        rw [workIter_solve cfg env bt diff _ true rfl rfl
          (by simp [qready, hr]) hmatch hnic hnz]
        exact ⟨rfl, rfl, by simp [upd2], by simp [upd2], by simp [upd2]⟩
      · by_cases hq0 : env.ready false = true
        · rw [workIter_launch cfg env bt diff _ false rfl rfl
            (by simp [qready, hq0]) hm0 hnic hz0]
          rw [workIter_solve cfg env bt diff _ true rfl rfl
            (by simp [qready, upd2, hr]) (by simpa [upd2] using hmatch)
            hnic (by simpa [upd2] using hnz)]
          refine ⟨rfl, by simp [upd2], by simp [upd2], by simp [upd2],
            by simp [upd2]⟩
        · have hq0f : env.ready false = false := Bool.eq_false_iff.mpr hq0
          rw [workIter_skip cfg env bt diff _ false rfl rfl
            (by simp [qready, hq0f])]
          rw [workIter_solve cfg env bt diff _ true rfl rfl
            (by simp [qready, hr]) hmatch hnic hnz]
          exact ⟨rfl, rfl, by simp [upd2], by simp [upd2], by simp [upd2]⟩
  · intro cfg st env bt btout diff hst hz
    rw [peachTick_work cfg st env bt btout diff hst]
    have d1 : (workIter cfg env bt diff
        ⟨st, btout, fun i => !(env.ready i), none, false, []⟩ false).done =
        none :=
      workIter_done_none cfg env bt diff _ false rfl (hz false)
    have f1 : (workIter cfg env bt diff
        ⟨st, btout, fun i => !(env.ready i), none, false, []⟩ false).st.h_solve
        true = st.h_solve true :=
      workIter_frame_hsolve cfg env bt diff _ false true (by decide)
    have d2 : (workIter cfg env bt diff (workIter cfg env bt diff
        ⟨st, btout, fun i => !(env.ready i), none, false, []⟩ false)
        true).done = none :=
      workIter_done_none cfg env bt diff _ true d1 (by rw [f1]; exact hz true)
    show (workIter cfg env bt diff (workIter cfg env bt diff
        ⟨st, btout, fun i => !(env.ready i), none, false, []⟩ false)
        true).done.getD .VERROR = .VERROR
    rw [d2]
    rfl

/-- C2 witness: a pending `0xab…` solve on queue 0 of a ready
`DEV_WORK` state, and a no-pending state returning NO_SOLVE. -/
theorem solve_detect_and_dequeue_witness :
    ((peachTick cfgW stW (envAll 100) btW btoutZ 0).res = .VEOK ∧
     (peachTick cfgW stW (envAll 100) btW btoutZ 0).btout =
       setNonce (stW.h_bt false) (stW.h_solve false) ∧
     (peachTick cfgW stW (envAll 100) btW btoutZ 0).st.h_solve false =
       zeros 32) ∧
    (peachTick cfgW stL (envAll 100) btW btoutZ 0).res = .VERROR := by
  have h1 := solve_detect_and_dequeue.1 cfgW stW (envAll 100) btW btoutZ 0
    false rfl rfl (by decide) (by decide) (by decide)
    (fun h => absurd h (by decide))
  have h2 := solve_detect_and_dequeue.2 cfgW stL (envAll 100) btW btoutZ 0
    rfl (fun i => by cases i <;> decide)
  exact ⟨⟨h1.1, h1.2.1, h1.2.2.2.1⟩, h2⟩

/-! ### C6: the `DEV_INIT` build phase -/

theorem le_roundupTo (x l : Nat) (hl : 0 < l) : x ≤ roundupTo x l := by
  rcases Nat.eq_zero_or_pos x with hx | hx
  · simp [hx]
  · unfold roundupTo
    have he : x + l - 1 = x - 1 + l := by omega
    rw [he, Nat.add_div_right _ hl]
    have h2 : x - 1 < ((x - 1) / l + 1) * l := by
      have := (Nat.div_lt_iff_lt_mul hl).mp (Nat.lt_succ_self ((x - 1) / l))
      simpa [Nat.succ_eq_add_one] using this
    omega

theorem idleGate_tc0 (st : PeachState) (env : PeachEnv) (bt btout : Bytes)
    (htc : get32 (btTcount bt) = 0) : idleGate st env bt btout = st := by
  unfold idleGate
  split_ifs <;> first | rfl | simp_all

theorem peachTick_idle_tc0 (cfg : PeachCfg) (st : PeachState)
    (env : PeachEnv) (bt btout : Bytes) (diff : Nat)
    (hst : st.status = .DEV_IDLE) (htc : get32 (btTcount bt) = 0) :
    peachTick cfg st env bt btout diff = ⟨.VERROR, st, btout, [], []⟩ := by
  unfold peachTick
  rw [if_neg (by simp [hst, DevStatus.unusable])]
  dsimp only
  rw [if_neg (show ¬ st.status = .DEV_INIT by simp [hst])]
  dsimp only
  rw [idleGate_tc0 _ _ _ _ htc]
  rw [if_neg (show ¬ st.status = .DEV_WORK by simp [hst])]

theorem peachTick_init_launch (cfg : PeachCfg) (st : PeachState)
    (env : PeachEnv) (bt btout : Bytes) (diff : Nat) (g1 g2 : Nat)
    (hst : st.status = .DEV_INIT) (hw : 0 < st.work)
    (hlt : st.work < PEACHCACHELEN)
    (hr0 : env.ready false = true) (hr1 : env.ready true = true)
    (hg1 : g1 = roundupTo (min (PEACHCACHELEN - st.work) cfg.globalWS)
      cfg.localWS)
    (hg2 : g2 = roundupTo (min (PEACHCACHELEN - (st.work + g1)) cfg.globalWS)
      cfg.localWS) :
    peachTick cfg st env bt btout diff =
      ⟨.VERROR,
       { st with work := if st.work + g1 < PEACHCACHELEN
                         then st.work + g1 + g2 else st.work + g1 },
       btout,
       if st.work + g1 < PEACHCACHELEN then [(false, g1), (true, g2)]
       else [(false, g1)],
       []⟩ := by
  subst hg2
  subst hg1
  unfold peachTick
  rw [if_neg (by simp [hst, DevStatus.unusable])]
  dsimp only
  rw [if_pos hst]
  rw [initIter_launch cfg env bt ⟨st, fun i => !(env.ready i), false, false, []⟩
    false rfl (by simp [qready, hr0]) (by simp; omega) (Or.inl hw) hlt]
  by_cases hc : st.work +
      roundupTo (min (PEACHCACHELEN - st.work) cfg.globalWS) cfg.localWS <
      PEACHCACHELEN
  · rw [initIter_launch cfg env bt _ true rfl
      (by simp [qready, upd2, hr1]) (by simp; omega)
      (Or.inl (Nat.lt_of_lt_of_le hw (Nat.le_add_right _ _))) hc]
    rw [idleGate_notIdle _ _ _ _ (by simp [hst])]
    rw [if_neg (by simp [hst])]
    simp [hc]
  · rw [initIter_complete_blocked cfg env bt _ true rfl
      (by simp [qready, upd2, hr1]) (by simp; omega)
      (Or.inl (Nat.lt_of_lt_of_le hw (Nat.le_add_right _ _))) hc
      (by simp [qready, upd2])]
    rw [idleGate_notIdle _ _ _ _ (by simp [hst])]
    rw [if_neg (by simp [hst])]
    simp [hc]

theorem peachTick_init_done (cfg : PeachCfg) (st : PeachState)
    (env : PeachEnv) (bt btout : Bytes) (diff : Nat)
    (hst : st.status = .DEV_INIT) (hge : ¬ st.work < PEACHCACHELEN)
    (hr0 : env.ready false = true) (hr1 : env.ready true = true)
    (htc : get32 (btTcount bt) = 0) :
    peachTick cfg st env bt btout diff =
      ⟨.VERROR,
       { st with last := env.now, status := .DEV_IDLE, work := 0 },
       btout, [], []⟩ := by
  have hpos : 0 < st.work :=
    lt_of_lt_of_le (by norm_num [PEACHCACHELEN]) (Nat.le_of_not_lt hge)
  unfold peachTick
  rw [if_neg (by simp [hst, DevStatus.unusable])]
  dsimp only
  rw [if_pos hst]
  rw [initIter_complete cfg env bt ⟨st, fun i => !(env.ready i), false, false, []⟩
    false rfl (by simp [qready, hr0]) (by simp; omega) (Or.inl hpos) hge
    (by simp [qready, hr1])]
  rw [initIter_brk cfg env bt _ true rfl]
  rw [idleGate_tc0 _ _ _ _ htc]
  rw [if_neg (by simp)]

theorem runTicks_build_inv (cfg : PeachCfg) (env : PeachEnv)
    (bt btout : Bytes) (diff : Nat) (st : PeachState)
    (hG : 0 < cfg.globalWS) (hL : 0 < cfg.localWS)
    (hr0 : env.ready false = true) (hr1 : env.ready true = true)
    (htc : get32 (btTcount bt) = 0)
    (hst : st.status = .DEV_INIT) (hw : st.work = 0) :
    ∀ k, (runTicks cfg env bt btout diff st k).status = .DEV_IDLE ∨
      ((runTicks cfg env bt btout diff st k).status = .DEV_INIT ∧
       min (k * cfg.globalWS) PEACHCACHELEN ≤
         (runTicks cfg env bt btout diff st k).work) := by
  have hlen : 0 < PEACHCACHELEN := by norm_num [PEACHCACHELEN]
  intro k
  induction k with
  | zero => exact Or.inr ⟨hst, by simp [hw, runTicks]⟩
  | succ k ih =>
    rcases ih with hidle | ⟨hinit, hmin⟩
    · left
      show (peachTick cfg (runTicks cfg env bt btout diff st k) env bt btout
        diff).st.status = .DEV_IDLE
      rw [peachTick_idle_tc0 _ _ _ _ _ _ hidle htc]
      exact hidle
    · by_cases hlt : (runTicks cfg env bt btout diff st k).work < PEACHCACHELEN
      · by_cases hz : (runTicks cfg env bt btout diff st k).work = 0
        · right
          have hk0 : k * cfg.globalWS = 0 := by omega
          have hk : k = 0 := by
            rcases Nat.mul_eq_zero.mp hk0 with h | h
            · exact h
            · omega
          have he := peachTick_init_entry cfg
            (runTicks cfg env bt btout diff st k) env bt btout diff _ _
            hinit hz hr0 hr1 rfl rfl
          have h1 : min PEACHCACHELEN cfg.globalWS ≤
              roundupTo (min PEACHCACHELEN cfg.globalWS) cfg.localWS :=
            le_roundupTo _ _ hL
          constructor
          · show (peachTick cfg (runTicks cfg env bt btout diff st k) env bt
              btout diff).st.status = .DEV_INIT
            rw [he]
            exact hinit
          · show min ((k + 1) * cfg.globalWS) PEACHCACHELEN ≤
              (peachTick cfg (runTicks cfg env bt btout diff st k) env bt
                btout diff).st.work
            rw [he, hk]
            dsimp only
            split_ifs <;> omega
        · right
          have hpos : 0 < (runTicks cfg env bt btout diff st k).work :=
            Nat.pos_of_ne_zero hz
          have he := peachTick_init_launch cfg
            (runTicks cfg env bt btout diff st k) env bt btout diff _ _
            hinit hpos hlt hr0 hr1 rfl rfl
          have h1 : min (PEACHCACHELEN -
              (runTicks cfg env bt btout diff st k).work) cfg.globalWS ≤
              roundupTo (min (PEACHCACHELEN -
                (runTicks cfg env bt btout diff st k).work) cfg.globalWS)
                cfg.localWS :=
            le_roundupTo _ _ hL
          constructor
          · show (peachTick cfg (runTicks cfg env bt btout diff st k) env bt
              btout diff).st.status = .DEV_INIT
            rw [he]
            exact hinit
          · show min ((k + 1) * cfg.globalWS) PEACHCACHELEN ≤
              (peachTick cfg (runTicks cfg env bt btout diff st k) env bt
                btout diff).st.work
            rw [he]
            have hmul : (k + 1) * cfg.globalWS =
                k * cfg.globalWS + cfg.globalWS := by ring
            rw [hmul]
            dsimp only
            split_ifs <;> omega
      · left
        show (peachTick cfg (runTicks cfg env bt btout diff st k) env bt btout
          diff).st.status = .DEV_IDLE
        rw [peachTick_init_done _ _ _ _ _ _ hinit hlt hr0 hr1 htc]

set_option maxRecDepth 40000 in
/-- C6 (corrected): with both queues ready and `work < PEACHCACHELEN`, an
`INIT` tick enqueues build launches of size
`roundupTo (min (PEACHCACHELEN - work) global) local` — the running `work`
at each launch — and adds each size to `work` (two launches when the first
leaves `work < PEACHCACHELEN`, one otherwise); `work` never decreases
while the device stays in `INIT`; but from `work = 0` the device is
guaranteed `DEV_IDLE` only after `⌈PEACHCACHELEN / global⌉ + 1` all-ready
ticks — one more than the claimed `⌈PEACHCACHELEN / global⌉`, because the
tick that finds `work ≥ PEACHCACHELEN` performs the IDLE transition
instead of a launch. -/
theorem build_phase_c6 (cfg : PeachCfg) (env : PeachEnv) (bt btout : Bytes)
    (diff : Nat) (st : PeachState) (g1 g2 : Nat)
    (hG : 0 < cfg.globalWS) (hL : 0 < cfg.localWS)
    (hr0 : env.ready false = true) (hr1 : env.ready true = true)
    (htc : get32 (btTcount bt) = 0) (hst : st.status = .DEV_INIT)
    (hg1 : g1 = roundupTo (min (PEACHCACHELEN - st.work) cfg.globalWS)
      cfg.localWS)
    (hg2 : g2 = roundupTo (min (PEACHCACHELEN - (st.work + g1)) cfg.globalWS)
      cfg.localWS) :
    (st.work < PEACHCACHELEN →
      (peachTick cfg st env bt btout diff).buildLog =
        (if st.work + g1 < PEACHCACHELEN then [(false, g1), (true, g2)]
         else [(false, g1)]) ∧
      (peachTick cfg st env bt btout diff).st.work =
        (if st.work + g1 < PEACHCACHELEN then st.work + g1 + g2
         else st.work + g1)) ∧
    ((peachTick cfg st env bt btout diff).st.status = .DEV_INIT →
      st.work ≤ (peachTick cfg st env bt btout diff).st.work) ∧
    (st.work = 0 →
      (runTicks cfg env bt btout diff st
        ((PEACHCACHELEN + cfg.globalWS - 1) / cfg.globalWS + 1)).status =
        .DEV_IDLE) := by
  have hchar : st.work < PEACHCACHELEN →
      (peachTick cfg st env bt btout diff).buildLog =
        (if st.work + g1 < PEACHCACHELEN then [(false, g1), (true, g2)]
         else [(false, g1)]) ∧
      (peachTick cfg st env bt btout diff).st.work =
        (if st.work + g1 < PEACHCACHELEN then st.work + g1 + g2
         else st.work + g1) := by
    intro hlt
    by_cases hz : st.work = 0
    · have he := peachTick_init_entry cfg st env bt btout diff g1 g2 hst hz
        hr0 hr1 (by rw [hg1, hz]; rfl) (by rw [hg2, hz, Nat.zero_add])
      rw [he, hz]
      simp [Nat.zero_add]
    · have he := peachTick_init_launch cfg st env bt btout diff g1 g2 hst
        (Nat.pos_of_ne_zero hz) hlt hr0 hr1 hg1 hg2
      rw [he]
      exact ⟨rfl, rfl⟩
  refine ⟨hchar, ?_, ?_⟩
  · intro hinit
    by_cases hlt : st.work < PEACHCACHELEN
    · rcases hchar hlt with ⟨-, hwk⟩
      rw [hwk]
      split_ifs <;> omega
    · rw [peachTick_init_done _ _ _ _ _ _ hst hlt hr0 hr1 htc] at hinit
      simp at hinit
  · intro hw0
    have hinv := runTicks_build_inv cfg env bt btout diff st hG hL hr0 hr1
      htc hst hw0 ((PEACHCACHELEN + cfg.globalWS - 1) / cfg.globalWS)
    have hnG : PEACHCACHELEN ≤
        (PEACHCACHELEN + cfg.globalWS - 1) / cfg.globalWS * cfg.globalWS := by
      have := le_roundupTo PEACHCACHELEN cfg.globalWS hG
      unfold roundupTo at this
      exact this
    show (peachTick cfg (runTicks cfg env bt btout diff st
      ((PEACHCACHELEN + cfg.globalWS - 1) / cfg.globalWS)) env bt btout
      diff).st.status = .DEV_IDLE
    rcases hinv with hidle | ⟨hinit, hmin⟩
    · rw [peachTick_idle_tc0 _ _ _ _ _ _ hidle htc]
      exact hidle
    · have hge : ¬ (runTicks cfg env bt btout diff st
          ((PEACHCACHELEN + cfg.globalWS - 1) / cfg.globalWS)).work <
          PEACHCACHELEN := by
        omega
      rw [peachTick_init_done _ _ _ _ _ _ hinit hge hr0 hr1 htc]

set_option maxRecDepth 40000 in
/-- C6 counterexample: with `global = PEACHCACHELEN` the claimed bound
`⌈PEACHCACHELEN / global⌉` is one all-ready tick, but after one tick from
a fresh `INIT` state the device is still `DEV_INIT`, not `DEV_IDLE`. -/
theorem build_bound_counterexample :
    (PEACHCACHELEN + cfgB.globalWS - 1) / cfgB.globalWS = 1 ∧
    (runTicks cfgB (envAll 100) btTc0 btoutZ 0 stI 1).status ≠ .DEV_IDLE :=
  ⟨by norm_num [PEACHCACHELEN, cfgB], by decide⟩

set_option maxRecDepth 40000 in
/-- C6 witness: with `global = PEACHCACHELEN` the device reaches
`DEV_IDLE` after `⌈PEACHCACHELEN / global⌉ + 1 = 2` all-ready ticks. -/
theorem build_phase_c6_witness :
    stI.status = .DEV_INIT ∧ stI.work = 0 ∧
    (runTicks cfgB (envAll 100) btTc0 btoutZ 0 stI
      ((PEACHCACHELEN + cfgB.globalWS - 1) / cfgB.globalWS + 1)).status =
      .DEV_IDLE :=
  ⟨rfl, rfl,
   (build_phase_c6 cfgB (envAll 100) btTc0 btoutZ 0 stI
     (roundupTo (min (PEACHCACHELEN - stI.work) cfgB.globalWS) cfgB.localWS)
     (roundupTo (min (PEACHCACHELEN - (stI.work +
       roundupTo (min (PEACHCACHELEN - stI.work) cfgB.globalWS)
         cfgB.localWS)) cfgB.globalWS) cfgB.localWS)
     (by norm_num [cfgB]) (by norm_num [cfgB]) rfl rfl (by decide) rfl
     rfl rfl).2.2 rfl⟩

/-! ### C8: the `mining.submit` line -/

theorem jsonVal_obj (f : Nat) (r : List Char) :
    jsonVal (f + 1) ('\x7b' :: r) = jsonObjItems f r := by
  simp [jsonVal]

theorem jsonVal_str (f : Nat) (r : List Char) :
    jsonVal (f + 1) ('"' :: r) = jsonStringRest r := by
  simp [jsonVal]

theorem jsonVal_arr (f : Nat) (r : List Char) :
    jsonVal (f + 1) ('[' :: r) = jsonArrItems f r := by
  simp [jsonVal]

theorem jsonStringRest_seg2 (s rest : List Char) (h : ∀ c ∈ s, jsonSafe c = true) :
    jsonStringRest (s ++ rest) = jsonStringRest rest := by
  induction s with
  | nil => rfl
  | cons c r ih =>
    have hc := h c (List.mem_cons_self c r)
    simp only [jsonSafe, decide_eq_true_eq] at hc
    simp only [List.cons_append, jsonStringRest, if_neg hc.1, if_neg hc.2.1]
    exact ih (fun x hx => h x (List.mem_cons_of_mem _ hx))

theorem dropDigs_seg2 (s rest : List Char) (h : ∀ c ∈ s, c.isDigit = true) :
    dropDigs (s ++ rest) = dropDigs rest := by
  induction s with
  | nil => rfl
  | cons c r ih =>
    simp only [List.cons_append, dropDigs, h c (List.mem_cons_self c r), if_true]
    exact ih (fun x hx => h x (List.mem_cons_of_mem _ hx))

theorem natDec_digits2 (n : Nat) : ∀ c ∈ natDec n, c.isDigit = true := by
  have : ∀ f n, ∀ c ∈ natDecAux f n, c.isDigit = true := by
    intro f
    induction f with
    | zero => intro n c hc; simp [natDecAux] at hc
    | succ f ih =>
      intro n c hc
      simp only [natDecAux] at hc
      by_cases h : n < 10
      · simp only [if_pos h] at hc
        simp only [List.mem_singleton] at hc
        subst hc
        unfold hexChar
        have h16 : n % 16 = n := Nat.mod_eq_of_lt (by omega)
        interval_cases n <;> simp [hexChar]
      · simp only [if_neg h, List.mem_append] at hc
        rcases hc with hc | hc
        · exact ih _ c hc
        · simp only [List.mem_singleton] at hc
          subst hc
          unfold hexChar
          have : n % 10 % 16 = n % 10 := Nat.mod_eq_of_lt (by omega)
          rw [this]
          have h10 : n % 10 < 10 := Nat.mod_lt _ (by omega)
          interval_cases h' : n % 10 <;> simp
  exact this _ n

theorem natDec_nonnil (n : Nat) : natDec n ≠ [] := by
  unfold natDec
  cases n with
  | zero => simp [natDecAux]
  | succ m =>
    simp only [natDecAux]
    split
    · simp
    · simp

theorem jsonVal_num2 (f N : Nat) (rest : List Char) :
    jsonVal (f + 1) (natDec N ++ ',' :: rest) = some (',' :: rest) := by
  rcases h : natDec N with _ | ⟨c, cs⟩
  · exact absurd h (natDec_nonnil N)
  · have hdig : c.isDigit = true := natDec_digits2 N c (by simp [h])
    have hcs : ∀ x ∈ cs, x.isDigit = true :=
      fun x hx => natDec_digits2 N x (by simp [h, hx])
    have h1 : c ≠ '"' := by intro e; subst e; simp [Char.isDigit] at hdig
    have h2 : c ≠ '[' := by intro e; subst e; simp [Char.isDigit] at hdig
    have h3 : c ≠ '\x7b' := by intro e; subst e; simp [Char.isDigit] at hdig
    simp only [List.cons_append, jsonVal, if_neg h1, if_neg h2, if_neg h3,
      hdig, if_true]
    rw [dropDigs_seg2 cs _ hcs]
    simp [dropDigs]

set_option maxRecDepth 4000 in
theorem submit_line_json2 (N : Nat) (w wk j nh hh : List Char)
    (hw : ∀ c ∈ w, jsonSafe c = true) (hk : ∀ c ∈ wk, jsonSafe c = true)
    (hj : ∀ c ∈ j, jsonSafe c = true)
    (hn : ∀ c ∈ nh, jsonSafe c = true) (hhh : ∀ c ∈ hh, jsonSafe c = true) :
    jsonVal 32 (("\x7b\"id\":").data ++ natDec N ++
      (",\"method\":\"mining.submit\",\"params\":[\"").data ++
      w ++ ['.'] ++ wk ++ ("\",\"").data ++ j ++ ("\",\"").data ++ nh ++
      ("\",\"").data ++ hh ++ ("\"]\x7d").data) = some [] := by
  simp only [List.cons_append, List.append_assoc, List.nil_append]
  rw [jsonVal_obj]
  simp only [jsonObjItems, jsonStringRest, Char.reduceEq, reduceIte,
    jsonStringRest_seg2 w _ hw, jsonStringRest_seg2 wk _ hk,
    jsonStringRest_seg2 j _ hj, jsonStringRest_seg2 nh _ hn,
    jsonStringRest_seg2 hh _ hhh,
    jsonVal_num2, jsonVal_str, jsonVal_arr, jsonArrItems]


theorem hexChar_safe (n : Nat) : jsonSafe (hexChar n) = true := by
  unfold hexChar
  split <;> decide

theorem bytes_to_hex_safe (bs : Bytes) : ∀ c ∈ bytes_to_hex bs, jsonSafe c = true := by
  intro c hc
  unfold bytes_to_hex at hc
  rw [List.mem_flatMap] at hc
  obtain ⟨b, -, hb⟩ := hc
  simp only [byteHex, List.mem_cons, List.not_mem_nil, or_false] at hb
  rcases hb with h | h <;> subst h <;> exact hexChar_safe _

theorem bytes_to_hex_length (bs : Bytes) : (bytes_to_hex bs).length = 2 * bs.length := by
  induction bs with
  | nil => rfl
  | cons b r ih =>
    simp only [bytes_to_hex, List.flatMap_cons, List.length_append, byteHex] at ih ⊢
    simp [ih]
    omega

theorem digit_safe (c : Char) (h : c.isDigit = true) : jsonSafe c = true := by
  simp only [Char.isDigit, Bool.and_eq_true, decide_eq_true_eq] at h
  simp only [jsonSafe, decide_eq_true_eq]
  refine ⟨?_, ?_, ?_⟩ <;> (intro e; subst e; revert h; decide)

theorem natDec_safe (n : Nat) : ∀ c ∈ natDec n, jsonSafe c = true :=
  fun c hc => digit_safe c (natDec_digits2 n c hc)

theorem count_safe_zero (s : List Char) (h : ∀ c ∈ s, jsonSafe c = true) :
    s.count '\n' = 0 := by
  induction s with
  | nil => rfl
  | cons c r ih =>
    have hc := h c (List.mem_cons_self c r)
    simp only [jsonSafe, decide_eq_true_eq] at hc
    simp [List.count_cons, ih (fun x hx => h x (List.mem_cons_of_mem _ hx)), hc.2.2]

theorem natDecAux_length : ∀ f n g, n < f → n < 10 ^ g → 0 < g →
    (natDecAux f n).length ≤ g := by
  intro f
  induction f with
  | zero => intro n g h; omega
  | succ f ih =>
    intro n g hf hg hg0
    simp only [natDecAux]
    by_cases h : n < 10
    · rw [if_pos h]
      simpa using hg0
    · rw [if_neg h]
      simp only [List.length_append, List.length_cons, List.length_nil]
      have h10 : n / 10 < f := by
        have := Nat.div_lt_self (show 0 < n by omega) (show 1 < 10 by omega)
        omega
      have hgg : 10 ^ g = 10 ^ (g - 1) * 10 := by
        rw [← Nat.pow_succ]
        congr 1
        omega
      have hpow : n / 10 < 10 ^ (g - 1) := by
        rw [Nat.div_lt_iff_lt_mul (by omega)]
        omega
      have hg1 : 0 < g - 1 := by
        rcases Nat.lt_or_ge g 2 with hg2 | hg2
        · have hge : g = 1 := by omega
          rw [hge] at hg
          norm_num at hg
          omega
        · omega
      have := ih (n / 10) (g - 1) h10 hpow hg1
      omega

theorem natDec_length (n g : Nat) (h : n < 10 ^ g) (hg : 0 < g) :
    (natDec n).length ≤ g :=
  natDecAux_length (n + 1) n g (Nat.lt_succ_self n) h hg

theorem isJson_of (s : List Char) (h : jsonVal 32 s = some []) :
    isJson s = true := by
  simp [isJson, h]

set_option maxRecDepth 4000 in
/-- C8 (confirmed): a `mining.submit` call on a connected context sends
exactly one newline-terminated line whose body is the exact
`{"id":N,"method":"mining.submit","params":["wallet.worker","job","nonce-hex","hash-hex"]}`
rendering, containing exactly one newline (the terminator), whose body is
valid JSON, and whose nonce and hash fields are hex strings of length 64
(hypotheses bound the field lengths below the 1024-byte message buffer,
as the C buffers do). -/
theorem submit_line_format (ctx : StratumCtx) (job_id : List Char)
    (nonce hash : Bytes) (S : List Char)
    (hsd : ¬ ctx.sd < 0) (hst : ctx.state = STRATUM_CONNECTED)
    (hw : ∀ c ∈ ctx.wallet, jsonSafe c = true)
    (hk : ∀ c ∈ ctx.worker, jsonSafe c = true)
    (hj : ∀ c ∈ job_id, jsonSafe c = true)
    (hwl : ctx.wallet.length ≤ 63) (hkl : ctx.worker.length ≤ 63)
    (hjl : job_id.length ≤ 63) (hmsg : ctx.msg_id < 1000000000)
    (hn32 : nonce.length = 32) (hh32 : hash.length = 32)
    (hS : S = ("\x7b\"id\":").data ++ natDec ctx.msg_id ++
      (",\"method\":\"mining.submit\",\"params\":[\"").data ++
      ctx.wallet ++ ['.'] ++ ctx.worker ++ ("\",\"").data ++ job_id ++
      ("\",\"").data ++ bytes_to_hex (nonce.take 32) ++ ("\",\"").data ++
      bytes_to_hex (hash.take 32) ++ ("\"]\x7d").data) :
    stratum_submit ctx job_id nonce hash =
      some (S ++ ['\n'], { ctx with msg_id := ctx.msg_id + 1 }) ∧
    (S ++ ['\n']).count '\n' = 1 ∧
    isJson S = true ∧
    (bytes_to_hex (nonce.take 32)).length = 64 ∧
    (bytes_to_hex (hash.take 32)).length = 64 := by
  have hnl : (bytes_to_hex (nonce.take 32)).length = 64 := by
    rw [bytes_to_hex_length]
    simp [hn32]
  have hhl : (bytes_to_hex (hash.take 32)).length = 64 := by
    rw [bytes_to_hex_length]
    simp [hh32]
  have hd9 : (natDec ctx.msg_id).length ≤ 9 :=
    natDec_length _ 9 (by norm_num; omega) (by norm_num)
  have hlen : (S ++ ['\n']).length ≤ 1023 := by
    rw [hS]
    simp only [List.length_append, List.length_cons, List.length_nil, hnl, hhl]
    simp
    omega
  refine ⟨?_, ?_, ?_, hnl, hhl⟩
  · unfold stratum_submit
    rw [if_neg (by rintro (h | h); exacts [hsd h, h hst])]
    dsimp only
    rw [← hS]
    rw [List.take_of_length_le hlen]
  · rw [hS]
    simp only [List.count_append]
    rw [count_safe_zero _ hw, count_safe_zero _ hk, count_safe_zero _ hj,
      count_safe_zero _ (natDec_safe _),
      count_safe_zero _ (bytes_to_hex_safe _),
      count_safe_zero _ (bytes_to_hex_safe _)]
    decide
  · have hjv := submit_line_json2 ctx.msg_id ctx.wallet ctx.worker job_id
      (bytes_to_hex (nonce.take 32)) (bytes_to_hex (hash.take 32))
      hw hk hj (bytes_to_hex_safe _) (bytes_to_hex_safe _)
    rw [hS]
    exact isJson_of _ hjv

set_option maxRecDepth 100000 in
/-- C8 witness: with wallet `"W"`, worker `"w"`, job `"j1"`, nonce
`32 × 0x01` and hash `32 × 0x02`, the submitted line is exactly the
spec's expected line followed by a newline, and its body is JSON. -/
theorem submit_line_format_witness :
    stratum_submit ctxC ("j1").data (List.replicate 32 1) (List.replicate 32 2) =
      some (("\x7b\"id\":1,\"method\":\"mining.submit\",\"params\":[\"W.w\",\"j1\",\"0101010101010101010101010101010101010101010101010101010101010101\",\"0202020202020202020202020202020202020202020202020202020202020202\"]\x7d").data ++ ['\n'], { ctxC with msg_id := 2 }) ∧
    isJson (("\x7b\"id\":1,\"method\":\"mining.submit\",\"params\":[\"W.w\",\"j1\",\"0101010101010101010101010101010101010101010101010101010101010101\",\"0202020202020202020202020202020202020202020202020202020202020202\"]\x7d").data) = true := by
  have h := submit_line_format ctxC ("j1").data (List.replicate 32 1)
    (List.replicate 32 2) (("\x7b\"id\":1,\"method\":\"mining.submit\",\"params\":[\"W.w\",\"j1\",\"0101010101010101010101010101010101010101010101010101010101010101\",\"0202020202020202020202020202020202020202020202020202020202020202\"]\x7d").data)
    (by decide) rfl (by decide) (by decide) (by decide) (by decide) (by decide)
    (by decide) (by decide) (by decide) (by decide) (by decide)
  exact ⟨h.1, h.2.2.1⟩


end Mochimo
